import Mathlib

/-!
# Verification of the serverless order-management handlers

Shallow embedding of the business logic of the repository's Lambda handlers:

* `orderProcessor` (SQS consumer, `processOrderCreated` state-machine rules),
* `httpCreateOrder` (`validateOrderData` and the validation gate),
* `httpGetOrder` (`isValidUUID`, lookup, derived `orderTotal`/`itemCount`),
* `httpListOrders` (`parseQueryParameters`, scan/query, pagination).

JSON values are modelled by the inductive `JValue`; JavaScript numbers are
modelled by `Rat` (exact rational arithmetic; IEEE-754 rounding of doubles is
outside the model).  The outcome of `JSON.parse` on a text blob is modelled by
`JParse` (`malformed` = the parse threw).  DynamoDB is modelled as an
association list from the string primary key `id` to the stored record.
Conditionals of the source are translated into small helper functions that
pattern-match on their argument, so every step of the JavaScript control flow
has a Lean equation.
-/

set_option maxHeartbeats 1000000

/-- A JSON value (the result of a successful `JSON.parse`).  `undefined` is
not a `JValue`; absent object fields are represented by `Option.none` at use
sites (`jsGet`). -/
inductive JValue where
  | null : JValue
  | bool : Bool → JValue
  | num : Rat → JValue
  | str : String → JValue
  | arr : List JValue → JValue
  | obj : List (String × JValue) → JValue
deriving Inhabited

/-- Outcome of applying `JSON.parse` to a piece of text: either the parse
threw (`malformed`) or it produced a value. -/
inductive JParse where
  | malformed : JParse
  | ok : JValue → JParse
deriving Inhabited

/-- First binding of key `k` in an association list (JS object fields;
the handlers never build objects with duplicate keys). -/
def lookupField (k : String) : List (String × JValue) → Option JValue
  | [] => none
  | (k', v) :: rest => if k' = k then some v else lookupField k rest

/-- JavaScript property access `v.k` (also `v?.k` on a non-nullish `v`):
`none` models `undefined`.  On a non-object the access yields `undefined`. -/
def jsGet (v : JValue) (k : String) : Option JValue :=
  match v with
  | .obj fields => lookupField k fields
  | _ => none

/-- JavaScript truthiness of a value. -/
def jsTruthy : JValue → Bool
  | .null => false
  | .bool b => b
  | .num q => q != 0
  | .str s => !s.isEmpty
  | .arr _ => true
  | .obj _ => true

/-- Truthiness of a possibly-`undefined` value (`none` = `undefined`,
which is falsy). -/
def jsTruthyO : Option JValue → Bool
  | none => false
  | some v => jsTruthy v

/-- Models the JavaScript expression `(x || 0)` applied to an order-item
field and its use as a factor: an absent (`undefined`) or `null` or zero
field contributes `0`, a numeric field contributes its value.  JavaScript
coercion of truthy non-numeric values (strings, objects) in `*` is outside
the model; theorems about totals restrict items to numeric-or-absent fields
via `numericItems`. -/
def jsNumOr0 : Option JValue → Rat
  | some (.num q) => q
  | _ => 0

/-- Value of one line item inside the `reduce`:
`(item.price || 0) * (item.qty || 0)`. -/
def itemValue (item : JValue) : Rat :=
  jsNumOr0 (jsGet item "price") * jsNumOr0 (jsGet item "qty")

/-- `items.reduce((sum, item) => sum + ((item.price || 0) * (item.qty || 0)), 0)`. -/
def orderTotalValue (items : List JValue) : Rat :=
  items.foldl (fun acc it => acc + itemValue it) 0

/-- The domain on which `jsNumOr0` is a faithful model of `(x || 0)` as a
factor: the field is absent, `null`, or a number. -/
def numericField : Option JValue → Bool
  | none => true
  | some .null => true
  | some (.num _) => true
  | _ => false

/-- Every item of the list has numeric-or-absent `price` and `qty` fields. -/
def numericItems (items : List JValue) : Bool :=
  items.all fun it => numericField (jsGet it "price") && numericField (jsGet it "qty")

/-- The order store: an association list from the string primary key `id` to
the stored record. -/
abbrev Store := List (String × JValue)

/-- Remove every binding of key `k`. -/
def eraseField (k : String) : List (String × JValue) → List (String × JValue)
  | [] => []
  | p :: rest => if p.1 = k then eraseField k rest else p :: eraseField k rest

/-- Replace field `k` (object spread `\x7b...o, k: x\x7d` keeps the field, last;
for `jsGet` the position of a field inside the object is irrelevant). -/
def jsSet (v : JValue) (k : String) (x : JValue) : JValue :=
  match v with
  | .obj fields => .obj (eraseField k fields ++ [(k, x)])
  | _ => v

/-- `order.items?.length || 0`: arrays and strings have a numeric `.length`;
on anything else the expression is falsy and yields `0`. -/
def jsLengthOr0 (v : Option JValue) : Nat :=
  match v with
  | some (.arr xs) => xs.length
  | some (.str s) => s.length
  | _ => 0

/-- The read-time total of a stored record: `0` unless
`order.items && Array.isArray(order.items)`, else the `reduce` over
`(item.price || 0) * (item.qty || 0)`. -/
def orderTotalOfRecord (order : JValue) : Rat :=
  match jsGet order "items" with
  | some (.arr xs) => orderTotalValue xs
  | _ => 0

/-- `parseFloat(x.toFixed(2))`: round to two decimal places, half away from
zero (ties perturbed by the binary representation of doubles are outside the
model). -/
def toFixed2 (q : Rat) : Rat :=
  if q ≥ 0 then ((Int.floor (q * 100 + 1/2) : Rat)) / 100
  else -(((Int.floor ((-q) * 100 + 1/2)) : Rat)) / 100

/-- Response enrichment shared by the get and list handlers:
`\x7b ...order, itemCount: order.items?.length || 0, orderTotal: parseFloat(orderTotal.toFixed(2)) \x7d`. -/
def enrichOrder (order : JValue) : JValue :=
  jsSet (jsSet order "itemCount" (.num (jsLengthOr0 (jsGet order "items"))))
    "orderTotal" (.num (toFixed2 (orderTotalOfRecord order)))

namespace Processor

/-- `items && items.length > 10` from `processOrderCreated`: only arrays and
strings have a numeric `.length`; on other truthy values `.length` is
`undefined` and `undefined > 10` is false; falsy `items` short-circuits. -/
def itemsLengthGt10 : Option JValue → Bool
  | some (.arr xs) => decide (xs.length > 10)
  | some (.str s) => jsTruthy (.str s) && decide (s.length > 10)
  | _ => false

/-- `items?.reduce((sum, item) => sum + ((item.price || 0) * (item.qty || 0)), 0) || 0`.
On absent or `null` items the optional chain yields `undefined` and `|| 0`
gives `0`; on an array it is the fold (with `|| 0` mapping a `0` result to
`0`, the identity on our rationals); on any other value `.reduce` is not a
function and the expression throws a `TypeError`, modelled by `Except.error`. -/
def totalValueOfItems : Option JValue → Except Unit Rat
  | none => .ok 0
  | some .null => .ok 0
  | some (.arr xs) => .ok (orderTotalValue xs)
  | some _ => .error ()

/-- Sequencing of the two business rules after the total value has been
computed (or has thrown): `newStatus` starts as CONFIRMED, the item-count
check may set PENDING_REVIEW, and the value check, evaluated afterwards,
overwrites with PENDING_APPROVAL when `totalValue > 10000`. -/
def outcomeFor (countGt10 : Bool) : Except Unit Rat → Except Unit (String × String)
  | .error e => .error e
  | .ok totalValue =>
    .ok <|
      if totalValue > 10000 then
        ("PENDING_APPROVAL", "High-value order requires approval")
      else if countGt10 then
        ("PENDING_REVIEW", "Large order requires manual review")
      else
        ("CONFIRMED", "Order processed successfully")

/-- `processOrderCreated(orderDetail)` from the order processor: returns
`(newStatus, processingNotes)`; `Except.error` models the `TypeError`
thrown by the `reduce` when `detail.items` is a truthy non-array. -/
def processOrderCreated (orderDetail : JValue) : Except Unit (String × String) :=
  outcomeFor (itemsLengthGt10 (jsGet orderDetail "items"))
    (totalValueOfItems (jsGet orderDetail "items"))

end Processor

/-- JavaScript `String.prototype.trim()`: strip whitespace from both ends
(implemented on the character list so that it computes by reduction). -/
def jsTrim (s : String) : String :=
  ⟨((s.data.dropWhile Char.isWhitespace).reverse.dropWhile Char.isWhitespace).reverse⟩

namespace CreateOrder

/-- Outcome of `validateOrderData`: `isValid` plus the accumulated error
messages (`isValid` is `errors.length === 0` in the source). -/
structure ValidationResult where
  isValid : Bool
  errors : List String
deriving Inhabited

/-- Errors from the `customerName` check on the field's value:
`!body.customerName || typeof body.customerName !== 'string' || body.customerName.trim().length === 0`. -/
def customerNameErrorsOf : Option JValue → List String
  | some (.str s) =>
    if !s.isEmpty && (jsTrim s).length != 0 then []
    else ["customerName is required and must be a non-empty string"]
  | _ => ["customerName is required and must be a non-empty string"]

/-- Errors from the `sku` check on the field's value (index-tagged message):
`!item.sku || typeof item.sku !== 'string'` collapses to "a non-empty string". -/
def skuErrorsOf (idx : Nat) : Option JValue → List String
  | some (.str s) =>
    if !s.isEmpty then []
    else ["Item " ++ toString idx ++ ": sku is required and must be a string"]
  | _ => ["Item " ++ toString idx ++ ": sku is required and must be a string"]

/-- Errors from the `qty` check:
`!item.qty || typeof item.qty !== 'number' || item.qty <= 0` collapses to
"a number `> 0`" (`!item.qty` rejects exactly `qty === 0` among numbers). -/
def qtyErrorsOf (idx : Nat) : Option JValue → List String
  | some (.num q) =>
    if q > 0 then []
    else ["Item " ++ toString idx ++ ": qty is required and must be a positive number"]
  | _ => ["Item " ++ toString idx ++ ": qty is required and must be a positive number"]

/-- Errors from the `price` check:
`item.price !== undefined && (typeof item.price !== 'number' || item.price < 0)`
(a present `null` price is not `undefined` and fails the type test). -/
def priceErrorsOf (idx : Nat) : Option JValue → List String
  | none => []
  | some (.num q) =>
    if q ≥ 0 then []
    else ["Item " ++ toString idx ++ ": price must be a non-negative number"]
  | some _ => ["Item " ++ toString idx ++ ": price must be a non-negative number"]

/-- All errors pushed for one element of `body.items` by the `forEach`. -/
def itemFieldErrors (idx : Nat) (item : JValue) : List String :=
  skuErrorsOf idx (jsGet item "sku") ++ qtyErrorsOf idx (jsGet item "qty") ++
    priceErrorsOf idx (jsGet item "price")

/-- Errors from the `items` check on the field's value:
`!Array.isArray(body.items) || body.items.length === 0` pushes one message,
otherwise each item is checked with `forEach((item, index) => ...)`. -/
def itemsErrorsOf : Option JValue → List String
  | some (.arr xs) =>
    if xs.length = 0 then ["items must be a non-empty array"]
    else (xs.enum.map fun p => itemFieldErrors p.1 p.2).flatten
  | _ => ["items must be a non-empty array"]

/-- `validateOrderData` from `httpCreateOrder.mjs`: a falsy body short-circuits
with a single error; otherwise the `customerName` and `items` errors are
accumulated and validity is `errors.length === 0`. -/
def validateOrderData (body : JValue) : ValidationResult :=
  if !jsTruthy body then ⟨false, ["Request body is required"]⟩
  else
    let errors :=
      customerNameErrorsOf (jsGet body "customerName") ++ itemsErrorsOf (jsGet body "items")
    ⟨errors.isEmpty, errors⟩

/-- Result of the create handler's parse-and-validate front section. -/
inductive CreateOutcome where
  | invalidJson : CreateOutcome
  | validationFailed : List String → CreateOutcome
  | accepted : JValue → CreateOutcome

/-- Shared tail of the gate: run `validateOrderData` on the parsed body. -/
def gateCheck (v : JValue) : CreateOutcome :=
  let r := validateOrderData v
  if r.isValid then .accepted v else .validationFailed r.errors

/-- The validation gate of the create handler: `JSON.parse(event.body || '\x7b\x7d')`
(an absent or empty body parses the literal empty-object text, giving `.obj []`),
a parse failure returns the 400 "Invalid JSON format" response, a validation
failure returns the 400 "Validation failed" response listing `validation.errors`,
and otherwise the handler proceeds to persistence with the parsed body. -/
def createOrderGate (body : Option JParse) : CreateOutcome :=
  match body with
  | none => gateCheck (.obj [])
  | some .malformed => .invalidJson
  | some (.ok v) => gateCheck v

/-- HTTP status produced by the gate: `some 400` when the request is rejected
before persistence, `none` when the handler proceeds past validation. -/
def gateStatus : CreateOutcome → Option Int
  | .invalidJson => some 400
  | .validationFailed _ => some 400
  | .accepted _ => none

end CreateOrder

namespace GetOrder

/-- One character class of the UUID regex (hex digit, case-insensitive). -/
def isHexDigit (c : Char) : Bool :=
  c.isDigit || ('a' ≤ c && c ≤ 'f') || ('A' ≤ c && c ≤ 'F')

/-- `isValidUUID` from `httpGetOrder.mjs`: the regex
`[0-9a-f]\x7b8\x7d-[0-9a-f]\x7b4\x7d-[1-5][0-9a-f]\x7b3\x7d-[89ab][0-9a-f]\x7b3\x7d-[0-9a-f]\x7b12\x7d`
anchored at both ends, case-insensitive. -/
def isValidUUID (s : String) : Bool :=
  let cs := s.data
  cs.length = 36 &&
  (List.range 36).all fun i =>
    let c := cs.getD i ' '
    if i = 8 || i = 13 || i = 18 || i = 23 then c = '-'
    else if i = 14 then '1' ≤ c && c ≤ '5'
    else if i = 19 then c = '8' || c = '9' || c = 'a' || c = 'b' || c = 'A' || c = 'B'
    else isHexDigit c

/-- The three response shapes of the get handler on the non-fault path. -/
inductive GetResult where
  | badRequest : String → GetResult
  | notFound : String → GetResult
  | okFound : JValue → GetResult

/-- HTTP status code of a `GetResult`. -/
def statusCode : GetResult → Int
  | .badRequest _ => 400
  | .notFound _ => 404
  | .okFound _ => 200

/-- Branch on `result.Item`: a missing item gives the 404 response, a found
order is returned enriched with `itemCount` and `orderTotal`. -/
def foundCase (store : Store) (oid : String) : Option JValue → Store × GetResult
  | none => (store, .notFound ("Order with ID " ++ oid ++ " was not found"))
  | some order => (store, .okFound (enrichOrder order))

/-- The get handler: `event.pathParameters?.id` is `pathId` (`none` models an
absent id); `!orderId` (absent or empty) gives 400, a non-UUID gives 400,
then a strongly consistent read decides between 404 and 200.  The store comes
back unchanged: the handler performs no write. -/
def handler (store : Store) (pathId : Option String) : Store × GetResult :=
  match pathId with
  | none => (store, .badRequest "Order ID is required in the URL path")
  | some oid =>
    if oid.isEmpty then (store, .badRequest "Order ID is required in the URL path")
    else if !isValidUUID oid then
      (store, .badRequest "Invalid order ID format. Must be a valid UUID.")
    else foundCase store oid (lookupField oid store)

end GetOrder

namespace ListOrders

/-- The raw query-string parameters of a list request.  `nextToken` carries
the outcome of base64-decoding and `JSON.parse`-ing the token text
(`none` when the parameter is absent or empty, hence falsy). -/
structure QueryStringParameters where
  limit : Option String := none
  status : Option String := none
  sortOrder : Option String := none
  nextToken : Option JParse := none

/-- The `params` object built by `parseQueryParameters`. -/
structure ListParams where
  limit : Int
  status : Option String
  sortOrder : String
  lastEvaluatedKey : Option JValue

/-- Optional leading sign of `parseInt`'s input. -/
def parseIntSign : List Char → Int × List Char
  | '-' :: rest => (-1, rest)
  | '+' :: rest => (1, rest)
  | cs => (1, cs)

/-- Numeric value of a string of decimal digits. -/
def digitsVal (ds : List Char) : Nat :=
  ds.foldl (fun n c => n * 10 + (c.toNat - 48)) 0

/-- Finish `parseInt`: take the longest digit prefix; no digits means `NaN`
(modelled as `none`). -/
def parseIntFrom (p : Int × List Char) : Option Int :=
  let ds := p.2.takeWhile Char.isDigit
  if ds.isEmpty then none else some (p.1 * (digitsVal ds : Int))

/-- `parseInt(s, 10)`: leading whitespace skipped, optional sign, longest
decimal-digit prefix; `none` models `NaN`. -/
def parseIntJS (s : String) : Option Int :=
  parseIntFrom (parseIntSign (s.data.dropWhile Char.isWhitespace))

/-- `if (limit > 0 && limit <= 100) params.limit = limit;` — a parse result
outside `1..100` (or `NaN`) leaves the default `10` in place. -/
def limitOfParse : Option Int → Int
  | some n => if 0 < n && n ≤ 100 then n else 10
  | none => 10

/-- The effective `params.limit` for a requested `limit` string:
`if (queryStringParameters.limit) { ... }` (an absent or empty string keeps
the default `10`). -/
def limitParam : Option String → Int
  | some s => if !s.isEmpty then limitOfParse (parseIntJS s) else 10
  | none => 10

/-- Membership in the five-value status enum used by the `includes` check. -/
def isValidStatus (s : String) : Bool :=
  s = "PENDING" || s = "CONFIRMED" || s = "PENDING_REVIEW" ||
    s = "PENDING_APPROVAL" || s = "CANCELLED"

/-- The effective `params.status`: kept only when truthy and in the enum. -/
def statusParam : Option String → Option String
  | some s => if !s.isEmpty && isValidStatus s then some s else none
  | none => none

/-- The effective `params.sortOrder`: the lower-cased value when truthy and
one of `asc`/`desc`, else the default `desc`. -/
def sortOrderParam : Option String → String
  | some s =>
    if !s.isEmpty && (s.toLower = "asc" || s.toLower = "desc") then s.toLower else "desc"
  | none => "desc"

/-- The effective `params.lastEvaluatedKey`: the decoded token on success;
a decode failure is caught, logged, and leaves `null` in place. -/
def lastEvaluatedKeyParam : Option JParse → Option JValue
  | some (.ok v) => some v
  | _ => none

/-- `parseQueryParameters` from the list handler: defaults
`limit = 10`, `status = null`, `sortOrder = 'desc'`, `lastEvaluatedKey = null`,
each overridden from the query string when valid. -/
def parseQueryParameters : Option QueryStringParameters → ListParams
  | none => { limit := 10, status := none, sortOrder := "desc", lastEvaluatedKey := none }
  | some q =>
    { limit := limitParam q.limit
      status := statusParam q.status
      sortOrder := sortOrderParam q.sortOrder
      lastEvaluatedKey := lastEvaluatedKeyParam q.nextToken }

/-- Key comparison used to resume a scan/query: the `ExclusiveStartKey`'s
`id` attribute against a row's `id` attribute. -/
def sameKeyId (k order : JValue) : Bool :=
  match jsGet k "id", jsGet order "id" with
  | some (.str a), some (.str b) => a = b
  | _, _ => false

/-- Rows strictly after the resume position named by an `ExclusiveStartKey`
(model: the store's rows in the backing scan/query order; an unknown key
resumes past the end). -/
def resumeAfter (k : JValue) : List JValue → List JValue
  | [] => []
  | o :: rest => if sameKeyId k o then rest else resumeAfter k rest

/-- Apply the optional `ExclusiveStartKey` to the row sequence. -/
def applyStartKey (rows : List JValue) : Option JValue → List JValue
  | none => rows
  | some k => resumeAfter k rows

/-- One page of a scan/query: up to `limit` rows from the resume position,
plus the `LastEvaluatedKey` (the key of the page's last row) when rows
remain beyond the page. -/
def pageOf (rows : List JValue) (limit : Nat) (startKey : Option JValue) :
    List JValue × Option JValue :=
  let rows' := applyStartKey rows startKey
  let page := rows'.take limit
  if rows'.length ≤ limit then (page, none)
  else (page, page.getLast?.map fun o => .obj [("id", (jsGet o "id").getD .null)])

/-- A row's `status` attribute equals the queried status. -/
def hasStatus (st : String) (o : JValue) : Bool :=
  match jsGet o "status" with
  | some (.str s) => s = st
  | _ => false

/-- The `createdAt` sort key of the client-side sort: a non-string
(or absent) `createdAt` behaves like the epoch (`new Date(0)`), which sorts
before every ISO timestamp; ISO-8601 timestamps compare chronologically
iff they compare lexicographically. -/
def createdAtKey (o : JValue) : String :=
  match jsGet o "createdAt" with
  | some (.str s) => s
  | _ => ""

/-- The scan path's client-side page sort:
`orders.sort((a, b) => ... dateA - dateB ... )` honoring `sortOrder`. -/
def sortByCreatedAt (sortOrder : String) (rows : List JValue) : List JValue :=
  rows.mergeSort fun a b =>
    if sortOrder = "asc" then createdAtKey a ≤ createdAtKey b
    else createdAtKey b ≤ createdAtKey a

/-- The page of rows served for the parsed parameters: the `StatusIndex`
query (rows with the requested status, in index order, direction from
`ScanIndexForward`) when a status filter is present, otherwise a scan whose
returned page is then sorted client-side by `createdAt`. -/
def rowsFor (store : List JValue) (p : ListParams) : List JValue × Option JValue :=
  match p.status with
  | some st =>
    let indexRows :=
      if p.sortOrder = "asc" then store.filter (hasStatus st)
      else (store.filter (hasStatus st)).reverse
    pageOf indexRows p.limit.toNat p.lastEvaluatedKey
  | none =>
    let page := pageOf store p.limit.toNat p.lastEvaluatedKey
    (sortByCreatedAt p.sortOrder page.1, page.2)

/-- The 200 response body of the list handler (the fields the claims are
about; headers and the echo of applied filters are carried verbatim). -/
structure ListResponse where
  statusCode : Int
  orders : List JValue
  limit : Int
  count : Nat
  hasMore : Bool
  nextTokenKey : Option JValue
  filterStatus : Option String
  filterSortOrder : String
deriving Inhabited

/-- The list handler on the non-fault path: parse the query parameters,
fetch one page, enrich each order with `itemCount`/`orderTotal`, and answer
200 with a pagination block whose `nextToken` encodes the
`LastEvaluatedKey` (`none` when the page ended the result set). -/
def handler (store : List JValue) (qsp : Option QueryStringParameters) : ListResponse :=
  let p := parseQueryParameters qsp
  let page := rowsFor store p
  let enriched := page.1.map enrichOrder
  { statusCode := 200
    orders := enriched
    limit := p.limit
    count := enriched.length
    hasMore := page.2.isSome
    nextTokenKey := page.2
    filterStatus := p.status
    filterSortOrder := p.sortOrder }

end ListOrders

namespace Processor

/-- The `error.code` classes distinguished by the handler's `catch` block.
`other` stands for any fault whose code is neither of the two named ones
(transient/infrastructure errors, and thrown `TypeError`s, which have no
`code`). -/
inductive DbError where
  | conditionalCheckFailed : DbError
  | validationException : DbError
  | other : DbError

/-- One SQS record of the batch: its `messageId` and the outcome of
`JSON.parse(record.body)`. -/
structure SQSRecord where
  messageId : String
  body : JParse

/-- The `UpdateCommand`'s effect on a stored record:
`SET #status = :status, #updatedAt = :updatedAt, #processingNotes = :notes`. -/
def updateOrderRecord (newStatus notes now : String) (o : JValue) : JValue :=
  jsSet (jsSet (jsSet o "status" (.str newStatus)) "updatedAt" (.str now))
    "processingNotes" (.str notes)

/-- Apply `f` to the record stored under `oid` (other keys untouched). -/
def storeUpdate : Store → String → (JValue → JValue) → Store
  | [], _, _ => []
  | p :: rest, oid, f => (if p.1 = oid then (p.1, f p.2) else p) :: storeUpdate rest oid f

/-- The conditional update against the record found (or not) under the key:
`ConditionExpression: 'attribute_exists(id)'` fails the call with
`ConditionalCheckFailedException` when no record exists. -/
def condUpdateFound (store : Store) (oid : String) (newStatus notes now : String) :
    Option JValue → Except DbError Store
  | some _ => .ok (storeUpdate store oid (updateOrderRecord newStatus notes now))
  | none => .error .conditionalCheckFailed

/-- The `UpdateCommand` keyed by `detail.id`'s value: a non-string key does
not match the table's string key schema and the call fails with a
`ValidationException`; a string key runs the conditional update. -/
def conditionalUpdate (store : Store) (newStatus notes now : String) :
    JValue → Except DbError Store
  | .str oid => condUpdateFound store oid newStatus notes now (lookupField oid store)
  | _ => .error .validationException

/-- Environment fault injection for the `await ddbDocClient.send(...)` call
while this message is processed: `some e` makes the call throw `e` instead
of executing (transient faults, throttling, schema faults). -/
def faultOr (injected : Option DbError) (call : Except DbError Store) : Except DbError Store :=
  match injected with
  | some e => .error e
  | none => call

/-- The store call for one OrderCreated update, under the fault oracle. -/
def attemptUpdate (fault : String → Option DbError) (messageId : String) (store : Store)
    (orderId : JValue) (newStatus notes now : String) : Except DbError Store :=
  faultOr (fault messageId) (conditionalUpdate store newStatus notes now orderId)

/-- The `catch` classification of the handler: every branch —
`ConditionalCheckFailedException`, `ValidationException`, and the transient
default — pushes `\x7b itemIdentifier: messageId \x7d` onto `batchItemFailures`
(the branches differ only in what they log), so any `error` maps to a
failed record and `ok` to a success carrying the updated store. -/
def updateResultCase (store : Store) : Except DbError Store → Store × Bool
  | .ok store2 => (store2, false)
  | .error _ => (store, true)

/-- Continue an OrderCreated record after `processOrderCreated`: a thrown
`TypeError` is caught by the outer `catch` (failed record), otherwise the
chosen status/notes are written via the conditional update. -/
def outcomeCase (fault : String → Option DbError) (now : String) (store : Store)
    (messageId : String) (orderId : JValue) :
    Except Unit (String × String) → Store × Bool
  | .error _ => (store, true)
  | .ok (newStatus, notes) =>
    updateResultCase store (attemptUpdate fault messageId store orderId newStatus notes now)

/-- The OrderCreated branch: `orderId = messageBody.detail?.id` must be
truthy (`if (!orderId)` fails the record without reaching the store),
then the business rules and the conditional update run. -/
def orderCreatedCase (fault : String → Option DbError) (now : String) (store : Store)
    (messageId : String) (detail : JValue) : Store × Bool :=
  if !jsTruthyO (jsGet detail "id") then (store, true)
  else
    outcomeCase fault now store messageId ((jsGet detail "id").getD .null)
      (processOrderCreated detail)

/-- Dispatch on the (truthy) `messageBody.type` value:
`messageBody.type === 'OrderCreated'` runs the OrderCreated branch; any
other (unknown) type fails the record. -/
def typeCase (fault : String → Option DbError) (now : String) (store : Store)
    (messageId : String) (detail : JValue) : JValue → Store × Bool
  | .str tys =>
    if tys = "OrderCreated" then orderCreatedCase fault now store messageId detail
    else (store, true)
  | _ => (store, true)

/-- The structural gate `if (!messageBody.type || !messageBody.detail)`
fails the record; with both fields truthy, dispatch on the type. -/
def structCase (fault : String → Option DbError) (now : String) (store : Store)
    (messageId : String) : Option JValue → Option JValue → Store × Bool
  | some tyv, some d =>
    if !jsTruthy tyv || !jsTruthy d then (store, true)
    else typeCase fault now store messageId d tyv
  | _, _ => (store, true)

/-- Process the parsed body of one record. -/
def processParsed (fault : String → Option DbError) (now : String) (store : Store)
    (messageId : String) (messageBody : JValue) : Store × Bool :=
  structCase fault now store messageId (jsGet messageBody "type") (jsGet messageBody "detail")

/-- Branch on the parse outcome of `record.body`: a parse failure fails the
record (caught in the inner `try`), otherwise the body is processed. -/
def bodyCase (fault : String → Option DbError) (now : String) (store : Store)
    (messageId : String) : JParse → Store × Bool
  | .malformed => (store, true)
  | .ok mb => processParsed fault now store messageId mb

/-- Process one SQS record; the `Bool` is `true` iff the record's
`messageId` is pushed onto `batchItemFailures`. -/
def processRecord (fault : String → Option DbError) (now : String) (store : Store)
    (r : SQSRecord) : Store × Bool :=
  bodyCase fault now store r.messageId r.body

/-- The order processor's batch loop: each record of `event.Records` is
processed in order inside its own `try`/`catch`, and the handler returns
`\x7b batchItemFailures \x7d` — the `messageId`s of the failed records, in
batch order.  The final store reflects the successful updates. -/
def handler (fault : String → Option DbError) (now : String) (store : Store) :
    List SQSRecord → Store × List String
  | [] => (store, [])
  | r :: rest =>
    let step := processRecord fault now store r
    let tail := handler fault now step.1 rest
    (tail.1, (if step.2 then [r.messageId] else []) ++ tail.2)

end Processor

/-! ## Helper lemmas -/

/-- A value with a retrievable field is an object, hence truthy. -/
theorem jsTruthy_of_jsGet_some {v : JValue} {k : String} {x : JValue}
    (h : jsGet v k = some x) : jsTruthy v = true := by
  cases v <;> simp [jsGet, jsTruthy] at h ⊢

/-- `orderTotalValue` as a mapped sum. -/
theorem orderTotalValue_eq_sum (xs : List JValue) :
    orderTotalValue xs = (xs.map itemValue).sum := by
  suffices h : ∀ (a : Rat), xs.foldl (fun acc it => acc + itemValue it) a =
      a + (xs.map itemValue).sum by
    simpa [orderTotalValue] using h 0
  induction xs with
  | nil => intro a; simp
  | cons x xs ih => intro a; simp [ih]; ring

/-- Items with no `qty` and no `price` field contribute nothing. -/
theorem orderTotalValue_eq_zero_of_fieldless (xs : List JValue)
    (h : ∀ it ∈ xs, jsGet it "qty" = none ∧ jsGet it "price" = none) :
    orderTotalValue xs = 0 := by
  rw [orderTotalValue_eq_sum]
  apply List.sum_eq_zero
  intro q hq
  rcases List.mem_map.mp hq with ⟨it, hit, rfl⟩
  rcases h it hit with ⟨h1, h2⟩
  simp [itemValue, h1, h2, jsNumOr0]

/-! ## Claim C1 -/

/-- C1: for every OrderCreated event whose items' total value (sum of
`qty × price`, with missing `price`/`qty` treated as `0`) exceeds `10000`,
`processOrderCreated` chooses status PENDING_APPROVAL with note
"High-value order requires approval", regardless of the item count: the
value check runs after the item-count check and overrides a PENDING_REVIEW
outcome.  (`numericItems` restricts to the faithfully modelled domain of
numeric-or-absent item fields.) -/
theorem claim_C1_high_value_overrides (detail : JValue) (xs : List JValue)
    (hitems : jsGet detail "items" = some (.arr xs))
    (_hnum : numericItems xs = true)
    (htot : orderTotalValue xs > 10000) :
    Processor.processOrderCreated detail =
      .ok ("PENDING_APPROVAL", "High-value order requires approval") := by
  unfold Processor.processOrderCreated
  rw [hitems]
  simp [Processor.totalValueOfItems, Processor.outcomeFor, htot]

/-- An order detail with a single item worth `2 × 6000 = 12000`. -/
def highValueItems : List JValue := [.obj [("qty", .num 2), ("price", .num 6000)]]

/-- The OrderCreated detail carrying `highValueItems`. -/
def highValueDetail : JValue :=
  .obj [("id", .str "a"), ("items", .arr highValueItems)]

/-- Witness for C1 at a concrete high-value order. -/
theorem claim_C1_high_value_overrides_witness :
    jsGet highValueDetail "items" = some (.arr highValueItems) ∧
      numericItems highValueItems = true ∧
      orderTotalValue highValueItems > 10000 ∧
      Processor.processOrderCreated highValueDetail =
        .ok ("PENDING_APPROVAL", "High-value order requires approval") := by
  have hget : jsGet highValueDetail "items" = some (.arr highValueItems) := by
    simp [highValueDetail, jsGet, lookupField]
  have hnum : numericItems highValueItems = true := by decide
  have htot : orderTotalValue highValueItems > 10000 := by
    have : orderTotalValue highValueItems = 12000 := by
      simp [highValueItems, orderTotalValue, itemValue, jsNumOr0, jsGet, lookupField]
      norm_num
    rw [this]; norm_num
  exact ⟨hget, hnum, htot, claim_C1_high_value_overrides highValueDetail highValueItems hget hnum htot⟩

/-! ## Claim C2 -/

/-- C2: for OrderCreated events whose total value is at most `10000`,
`processOrderCreated` chooses PENDING_REVIEW when the item count exceeds
`10` and CONFIRMED when it does not. -/
theorem claim_C2_count_gate (detail : JValue) (xs : List JValue)
    (hitems : jsGet detail "items" = some (.arr xs))
    (_hnum : numericItems xs = true)
    (htot : orderTotalValue xs ≤ 10000) :
    (xs.length > 10 →
      Processor.processOrderCreated detail =
        .ok ("PENDING_REVIEW", "Large order requires manual review")) ∧
    (xs.length ≤ 10 →
      Processor.processOrderCreated detail =
        .ok ("CONFIRMED", "Order processed successfully")) := by
  unfold Processor.processOrderCreated
  rw [hitems]
  constructor
  · intro hlen
    simp [Processor.totalValueOfItems, Processor.outcomeFor, Processor.itemsLengthGt10,
      not_lt.mpr htot, hlen]
  · intro hlen
    simp [Processor.totalValueOfItems, Processor.outcomeFor, Processor.itemsLengthGt10,
      not_lt.mpr htot, not_lt.mpr hlen]

/-- Eleven one-unit items (total `11 ≤ 10000`, count `11 > 10`). -/
def elevenItems : List JValue :=
  List.replicate 11 (.obj [("qty", .num 1), ("price", .num 1)])

/-- The OrderCreated detail carrying `elevenItems`. -/
def elevenItemsDetail : JValue := .obj [("id", .str "b"), ("items", .arr elevenItems)]

/-- Witness for C2: an 11-item cheap order is PENDING_REVIEW, a 1-item cheap
order is CONFIRMED. -/
theorem claim_C2_count_gate_witness :
    (elevenItems.length > 10 ∧
      Processor.processOrderCreated elevenItemsDetail =
        .ok ("PENDING_REVIEW", "Large order requires manual review")) ∧
    (highValueItems.length ≤ 10 ∧
      Processor.processOrderCreated (.obj [("items", .arr [.obj [("qty", .num 1), ("price", .num 10)]])]) =
        .ok ("CONFIRMED", "Order processed successfully")) := by
  constructor
  · have hget : jsGet elevenItemsDetail "items" = some (.arr elevenItems) := by
      simp [elevenItemsDetail, jsGet, lookupField]
    have hnum : numericItems elevenItems = true := by decide
    have htot : orderTotalValue elevenItems ≤ 10000 := by
      have : orderTotalValue elevenItems = 11 := by
        simp [elevenItems, orderTotalValue_eq_sum, itemValue, jsNumOr0, jsGet, lookupField,
          List.map_replicate]
        norm_num
      rw [this]; norm_num
    exact ⟨by decide,
      (claim_C2_count_gate elevenItemsDetail elevenItems hget hnum htot).1 (by decide)⟩
  · have hget : jsGet (JValue.obj [("items", .arr [.obj [("qty", .num 1), ("price", .num 10)]])]) "items" =
        some (.arr [.obj [("qty", .num 1), ("price", .num 10)]]) := by
      simp [jsGet, lookupField]
    have hnum : numericItems [JValue.obj [("qty", .num 1), ("price", .num 10)]] = true := by decide
    have htot : orderTotalValue [JValue.obj [("qty", .num 1), ("price", .num 10)]] ≤ 10000 := by
      have : orderTotalValue [JValue.obj [("qty", .num 1), ("price", .num 10)]] = 10 := by
        simp [orderTotalValue, itemValue, jsNumOr0, jsGet, lookupField]
      rw [this]; norm_num
    exact ⟨by decide, (claim_C2_count_gate _ _ hget hnum htot).2 (by decide)⟩


/-! ## Association-list lemmas for `jsSet`/`storeUpdate` -/

/-- Lookup skips an appended tail while the key is found on the left. -/
theorem lookupField_append_of_some {k : String} {l : List (String × JValue)} {v : JValue}
    (h : lookupField k l = some v) (m : List (String × JValue)) :
    lookupField k (l ++ m) = some v := by
  induction l with
  | nil => simp [lookupField] at h
  | cons p rest ih =>
    by_cases hk : p.1 = k
    · simp [lookupField, hk] at h ⊢; exact h
    · simp [lookupField, hk] at h ⊢; exact ih h

/-- Lookup falls through to an appended tail when the left part misses. -/
theorem lookupField_append_of_none {k : String} {l : List (String × JValue)}
    (h : lookupField k l = none) (m : List (String × JValue)) :
    lookupField k (l ++ m) = lookupField k m := by
  induction l with
  | nil => simp
  | cons p rest ih =>
    by_cases hk : p.1 = k
    · simp [lookupField, hk] at h
    · simp [lookupField, hk] at h ⊢; exact ih h

/-- Erasing a *different* key does not change lookup. -/
theorem lookupField_eraseField_ne {k k' : String} (h : k ≠ k') (l : List (String × JValue)) :
    lookupField k (eraseField k' l) = lookupField k l := by
  induction l with
  | nil => simp [eraseField]
  | cons p rest ih =>
    by_cases hk' : p.1 = k'
    · have hpk : p.1 ≠ k := by rw [hk']; exact Ne.symm h
      simp [eraseField, hk', lookupField, hpk, ih, Ne.symm h]
    · by_cases hk : p.1 = k
      · simp [eraseField, hk', lookupField, hk, h]
      · simp [eraseField, hk', lookupField, hk, ih]

/-- Erasing a key makes its lookup fail. -/
theorem lookupField_eraseField_self (k : String) (l : List (String × JValue)) :
    lookupField k (eraseField k l) = none := by
  induction l with
  | nil => simp [eraseField, lookupField]
  | cons p rest ih =>
    by_cases hk : p.1 = k
    · simp [eraseField, hk, ih]
    · simp [eraseField, hk, lookupField, ih]

/-- Reading back the field just written by `jsSet`. -/
theorem jsGet_jsSet_same (fs : List (String × JValue)) (k : String) (x : JValue) :
    jsGet (jsSet (.obj fs) k x) k = some x := by
  have h := lookupField_eraseField_self k fs
  simp [jsSet, jsGet, lookupField_append_of_none h, lookupField]

/-- Reading a different field than the one written by `jsSet`. -/
theorem jsGet_jsSet_ne {k k' : String} (h : k ≠ k') (fs : List (String × JValue)) (x : JValue) :
    jsGet (jsSet (.obj fs) k' x) k = jsGet (.obj fs) k := by
  simp only [jsSet, jsGet]
  cases hl : lookupField k fs with
  | some v =>
    rw [lookupField_append_of_some]
    rw [lookupField_eraseField_ne h, hl]
  | none =>
    have h0 : lookupField k (eraseField k' fs) = none := by
      rw [lookupField_eraseField_ne h, hl]
    rw [lookupField_append_of_none h0]
    simp [lookupField, Ne.symm h]

/-- The `status` field written by the processor's update expression. -/
theorem jsGet_updateOrderRecord_status (fs : List (String × JValue))
    (newStatus notes now : String) :
    jsGet (Processor.updateOrderRecord newStatus notes now (.obj fs)) "status" =
      some (.str newStatus) := by
  unfold Processor.updateOrderRecord
  have h1 : jsSet (.obj fs) "status" (.str newStatus) =
      .obj (eraseField "status" fs ++ [("status", .str newStatus)]) := rfl
  rw [h1]
  have h2 : jsSet (.obj (eraseField "status" fs ++ [("status", .str newStatus)])) "updatedAt"
      (.str now) = .obj (eraseField "updatedAt" (eraseField "status" fs ++
        [("status", .str newStatus)]) ++ [("updatedAt", .str now)]) := rfl
  rw [h2]
  rw [show ∀ gs, jsSet (.obj gs) "processingNotes" (.str notes) =
      .obj (eraseField "processingNotes" gs ++ [("processingNotes", .str notes)]) from
    fun gs => rfl]
  show jsGet _ "status" = _
  simp only [jsGet]
  have hA : lookupField "status"
      (eraseField "status" fs ++ [("status", .str newStatus)]) = some (.str newStatus) := by
    rw [lookupField_append_of_none (lookupField_eraseField_self "status" fs)]
    simp [lookupField]
  have hB : lookupField "status"
      (eraseField "updatedAt" (eraseField "status" fs ++ [("status", .str newStatus)]) ++
        [("updatedAt", .str now)]) = some (.str newStatus) := by
    apply lookupField_append_of_some
    rw [lookupField_eraseField_ne (by decide)]
    exact hA
  apply lookupField_append_of_some
  rw [lookupField_eraseField_ne (by decide)]
  exact hB

/-- `storeUpdate` rewrites exactly the record under the updated key. -/
theorem lookupField_storeUpdate (store : Store) (oid : String) (f : JValue → JValue)
    (id : String) :
    lookupField id (Processor.storeUpdate store oid f) =
      if id = oid then (lookupField id store).map f else lookupField id store := by
  induction store with
  | nil => simp [Processor.storeUpdate, lookupField]
  | cons p rest ih =>
    simp only [Processor.storeUpdate]
    by_cases hk : p.1 = oid
    · rw [if_pos hk]
      by_cases hid : id = oid
      · have hpid : p.1 = id := by rw [hk, hid]
        simp [lookupField, hpid, hid]
      · have hpid : p.1 ≠ id := fun hx => hid (hx.symm.trans hk)
        simp [lookupField, hpid, hid, ih]
    · rw [if_neg hk]
      by_cases hpid : p.1 = id
      · have hid : ¬ id = oid := fun hx => hk (hpid.trans hx)
        simp [lookupField, hpid, hid]
      · simp [lookupField, hpid, ih]

/-- `storeUpdate` never creates or deletes keys. -/
theorem lookupField_storeUpdate_isSome (store : Store) (oid : String) (f : JValue → JValue)
    (id : String) :
    (lookupField id (Processor.storeUpdate store oid f)).isSome =
      (lookupField id store).isSome := by
  rw [lookupField_storeUpdate]
  by_cases h : id = oid <;> simp [h]

/-! ## Claim C10 -/

/-- The processor applied to a single-record batch. -/
theorem handler_singleton (fault : String → Option Processor.DbError) (now : String)
    (store : Store) (r : Processor.SQSRecord) :
    Processor.handler fault now store [r] =
      ((Processor.processRecord fault now store r).1,
        if (Processor.processRecord fault now store r).2 then [r.messageId] else []) := by
  simp [Processor.handler]

/-- An OrderCreated detail whose `items` is the number `5` (not an array). -/
def badItemsDetail : JValue := .obj [("id", .str "c"), ("items", .num 5)]

/-- A store holding order `c` in status PENDING_APPROVAL. -/
def badItemsStore : Store := [("c", .obj [("id", .str "c"), ("status", .str "PENDING_APPROVAL")])]

/-- The SQS record carrying `badItemsDetail`. -/
def badItemsRecord : Processor.SQSRecord :=
  ⟨"m10", .ok (.obj [("type", .str "OrderCreated"), ("detail", badItemsDetail)])⟩

/-- C10 counterexample: the claim says an OrderCreated event for an existing
order whose `detail.items` is "missing, not a list, or empty" does not fail
and sets the status to CONFIRMED.  For `items = 5` (present, not a list) the
`reduce` throws: `processOrderCreated` errors, the message is reported
failed, and the stored status stays PENDING_APPROVAL. -/
theorem claim_C10_counterexample :
    (lookupField "c" badItemsStore).isSome = true ∧
    Processor.processOrderCreated badItemsDetail = .error () ∧
    Processor.handler (fun _ => none) "T" badItemsStore [badItemsRecord] =
      (badItemsStore, ["m10"]) ∧
    ((lookupField "c" badItemsStore).bind fun o => jsGet o "status") =
      some (.str "PENDING_APPROVAL") := by
  refine ⟨by simp [badItemsStore, lookupField], ?_, ?_, ?_⟩
  · simp [Processor.processOrderCreated, badItemsDetail, jsGet, lookupField,
      Processor.totalValueOfItems, Processor.itemsLengthGt10, Processor.outcomeFor]
  · simp [Processor.handler, Processor.processRecord, Processor.bodyCase,
      Processor.processParsed, Processor.structCase, Processor.typeCase,
      Processor.orderCreatedCase, Processor.outcomeCase, Processor.attemptUpdate,
      Processor.faultOr, Processor.conditionalUpdate, Processor.condUpdateFound,
      Processor.updateResultCase, Processor.processOrderCreated,
      Processor.totalValueOfItems, Processor.itemsLengthGt10, Processor.outcomeFor,
      badItemsRecord, badItemsDetail, jsGet, lookupField, jsTruthy, jsTruthyO]
  · simp [badItemsStore, lookupField, jsGet]

/-- C10 amended: for an OrderCreated event whose `detail.id` names an existing
(object) record and whose `detail.items` is absent, `null`, or an array of at
most ten items each lacking `qty` and `price` (so count and total are `0` or
harmless), the processor does not fail: it chooses CONFIRMED and the
conditional update overwrites whatever status the order currently has — the
only precondition checked is that the order id exists.  (A truthy non-array
`detail.items` instead throws and fails the message: see the counterexample.) -/
theorem claim_C10_amended (detail : JValue) (oid mid now : String) (store : Store)
    (fields : List (String × JValue))
    (hid : jsGet detail "id" = some (.str oid))
    (hoid : oid.isEmpty = false)
    (hstore : lookupField oid store = some (.obj fields))
    (hitems : jsGet detail "items" = none ∨ jsGet detail "items" = some .null ∨
      ∃ xs, jsGet detail "items" = some (.arr xs) ∧ xs.length ≤ 10 ∧
        ∀ it ∈ xs, jsGet it "qty" = none ∧ jsGet it "price" = none) :
    Processor.processOrderCreated detail = .ok ("CONFIRMED", "Order processed successfully") ∧
    Processor.handler (fun _ => none) now store
        [⟨mid, .ok (.obj [("type", .str "OrderCreated"), ("detail", detail)])⟩] =
      (Processor.storeUpdate store oid
        (Processor.updateOrderRecord "CONFIRMED" "Order processed successfully" now), []) ∧
    (lookupField oid (Processor.handler (fun _ => none) now store
        [⟨mid, .ok (.obj [("type", .str "OrderCreated"), ("detail", detail)])⟩]).1).bind
      (fun o => jsGet o "status") = some (.str "CONFIRMED") := by
  have hnum : ¬ ((0 : Rat) > 10000) := by norm_num
  have hproc : Processor.processOrderCreated detail =
      .ok ("CONFIRMED", "Order processed successfully") := by
    unfold Processor.processOrderCreated
    rcases hitems with h | h | ⟨xs, h, hlen, hfl⟩ <;> rw [h]
    · simp [Processor.totalValueOfItems, Processor.itemsLengthGt10, Processor.outcomeFor, hnum]
    · simp [Processor.totalValueOfItems, Processor.itemsLengthGt10, Processor.outcomeFor, hnum]
    · have hz := orderTotalValue_eq_zero_of_fieldless xs hfl
      simp [Processor.totalValueOfItems, Processor.itemsLengthGt10, Processor.outcomeFor,
        hz, hnum, Nat.not_lt.mpr hlen]
  have hstep : Processor.processRecord (fun _ => none) now store
      ⟨mid, .ok (.obj [("type", .str "OrderCreated"), ("detail", detail)])⟩ =
      (Processor.storeUpdate store oid
        (Processor.updateOrderRecord "CONFIRMED" "Order processed successfully" now), false) := by
    have hty : jsGet (.obj [("type", .str "OrderCreated"), ("detail", detail)]) "type" =
        some (.str "OrderCreated") := by simp [jsGet, lookupField]
    have hdet : jsGet (.obj [("type", .str "OrderCreated"), ("detail", detail)]) "detail" =
        some detail := by simp [jsGet, lookupField]
    have htr : jsTruthy detail = true := jsTruthy_of_jsGet_some hid
    have hOC : jsTruthy (JValue.str "OrderCreated") = true := by decide
    have hidT : jsTruthyO (some (JValue.str oid)) = true := by
      simp [jsTruthyO, jsTruthy, hoid]
    simp [Processor.processRecord, Processor.bodyCase, Processor.processParsed, hty, hdet,
      Processor.structCase, htr, hOC, Processor.typeCase, Processor.orderCreatedCase,
      hid, hidT, hproc, Processor.outcomeCase, Processor.attemptUpdate,
      Processor.faultOr, Processor.conditionalUpdate, Processor.condUpdateFound, hstore,
      Processor.updateResultCase]
  refine ⟨hproc, ?_, ?_⟩
  · rw [handler_singleton, hstep]; simp
  · rw [handler_singleton, hstep]
    simp only [lookupField_storeUpdate, if_pos rfl, hstore, Option.map_some]
    simp [jsGet_updateOrderRecord_status]

/-- Detail and store for the C10 witness: `items` absent, order `w` currently
CANCELLED. -/
def fieldlessDetail : JValue := .obj [("id", .str "w")]

/-- Store for the C10 witness. -/
def fieldlessStore : Store := [("w", .obj [("id", .str "w"), ("status", .str "CANCELLED")])]

/-- Witness for the amended C10 at a concrete fieldless event. -/
theorem claim_C10_amended_witness :
    jsGet fieldlessDetail "id" = some (.str "w") ∧
      lookupField "w" fieldlessStore = some (.obj [("id", .str "w"), ("status", .str "CANCELLED")]) ∧
      Processor.processOrderCreated fieldlessDetail =
        .ok ("CONFIRMED", "Order processed successfully") ∧
      (lookupField "w" (Processor.handler (fun _ => none) "T" fieldlessStore
          [⟨"mW", .ok (.obj [("type", .str "OrderCreated"), ("detail", fieldlessDetail)])⟩]).1).bind
        (fun o => jsGet o "status") = some (.str "CONFIRMED") := by
  have hid : jsGet fieldlessDetail "id" = some (.str "w") := by
    simp [fieldlessDetail, jsGet, lookupField]
  have hstore : lookupField "w" fieldlessStore =
      some (.obj [("id", .str "w"), ("status", .str "CANCELLED")]) := by
    simp [fieldlessStore, lookupField]
  have hitems : jsGet fieldlessDetail "items" = none := by
    simp [fieldlessDetail, jsGet, lookupField]
  have h := claim_C10_amended fieldlessDetail "w" "mW" "T" fieldlessStore
    [("id", .str "w"), ("status", .str "CANCELLED")] hid (by decide) hstore (Or.inl hitems)
  exact ⟨hid, hstore, h.1, h.2.2⟩

/-! ## Claim C5 -/

/-- A record whose body does not parse: a permanent failure per the spec. -/
def permFailRecord : Processor.SQSRecord := ⟨"mA", .malformed⟩

/-- A well-formed OrderCreated record for order `tA`. -/
def transientRecord : Processor.SQSRecord :=
  ⟨"mA", .ok (.obj [("type", .str "OrderCreated"), ("detail", .obj [("id", .str "tA")])])⟩

/-- Store containing order `tA`. -/
def c5Store : Store := [("tA", .obj [("id", .str "tA"), ("status", .str "PENDING")])]

/-- C5 evidence: the handler reports a permanently failed message (malformed
body — the code's own comment says "Don't retry parsing errors - send to
DLQ") and a transiently failed message (the store call throws a transient
fault) through the *identical* output `\x7b batchItemFailures: [\x7b itemIdentifier \x7d] \x7d`:
the per-batch result carries no distinction, so the channel retries both the
same way. -/
theorem claim_C5_no_retry_distinction :
    Processor.handler (fun _ => none) "T" c5Store [permFailRecord] = (c5Store, ["mA"]) ∧
    Processor.handler (fun _ => some .other) "T" c5Store [transientRecord] = (c5Store, ["mA"]) ∧
    Processor.handler (fun _ => none) "T" c5Store [permFailRecord] =
      Processor.handler (fun _ => some .other) "T" c5Store [transientRecord] := by
  refine ⟨?_, ?_, ?_⟩
  · simp [Processor.handler, Processor.processRecord, Processor.bodyCase, permFailRecord]
  · simp [Processor.handler, Processor.processRecord, Processor.bodyCase, transientRecord,
      Processor.processParsed, Processor.structCase, Processor.typeCase,
      Processor.orderCreatedCase, Processor.outcomeCase, Processor.attemptUpdate,
      Processor.faultOr, Processor.updateResultCase, Processor.processOrderCreated,
      Processor.totalValueOfItems, Processor.itemsLengthGt10, Processor.outcomeFor,
      jsGet, lookupField, jsTruthy, jsTruthyO]
  · simp [Processor.handler, Processor.processRecord, Processor.bodyCase, permFailRecord,
      transientRecord, Processor.processParsed, Processor.structCase, Processor.typeCase,
      Processor.orderCreatedCase, Processor.outcomeCase, Processor.attemptUpdate,
      Processor.faultOr, Processor.updateResultCase, Processor.processOrderCreated,
      Processor.totalValueOfItems, Processor.itemsLengthGt10, Processor.outcomeFor,
      jsGet, lookupField, jsTruthy, jsTruthyO]

/-! ## Claim C4 -/

/-- Whether one record is reported failed depends on the store only through
key existence: two stores with the same key set classify every record the
same way. -/
theorem processRecord_snd_congr (fault : String → Option Processor.DbError) (now : String)
    (store store' : Store)
    (h : ∀ id, (lookupField id store').isSome = (lookupField id store).isSome)
    (r : Processor.SQSRecord) :
    (Processor.processRecord fault now store' r).2 =
      (Processor.processRecord fault now store r).2 := by
  cases hb : r.body with
  | malformed => simp [Processor.processRecord, Processor.bodyCase, hb]
  | ok mb =>
    simp only [Processor.processRecord, Processor.bodyCase, hb, Processor.processParsed]
    cases hty : jsGet mb "type" with
    | none => simp [Processor.structCase]
    | some tyv =>
      cases hdet : jsGet mb "detail" with
      | none => simp [Processor.structCase]
      | some d =>
        simp only [Processor.structCase]
        by_cases hc : (!jsTruthy tyv || !jsTruthy d) = true
        · simp [hc]
        · simp only [hc, if_false, Bool.false_eq_true, if_neg]
          cases tyv with
          | str tys =>
            simp only [Processor.typeCase]
            by_cases htys : tys = "OrderCreated"
            · simp only [htys, if_pos rfl, Processor.orderCreatedCase]
              by_cases hid : (!jsTruthyO (jsGet d "id")) = true
              · simp [hid]
              · simp only [hid, Bool.false_eq_true, if_neg]
                cases hpo : Processor.processOrderCreated d with
                | error e => simp [Processor.outcomeCase]
                | ok pr =>
                  obtain ⟨st, nt⟩ := pr
                  simp only [Processor.outcomeCase, Processor.attemptUpdate, Processor.faultOr]
                  cases hf : fault r.messageId with
                  | some e => simp [Processor.updateResultCase]
                  | none =>
                    cases ho : (jsGet d "id").getD JValue.null with
                    | str oid =>
                      cases hl : lookupField oid store with
                      | none =>
                        have h2 : lookupField oid store' = none := by
                          have h3 := h oid
                          rw [hl] at h3
                          simpa using h3
                        simp [Processor.conditionalUpdate, Processor.condUpdateFound, hl, h2,
                          Processor.updateResultCase]
                      | some v =>
                        obtain ⟨v', hv'⟩ : ∃ v', lookupField oid store' = some v' := by
                          have h3 := h oid
                          rw [hl] at h3
                          exact Option.isSome_iff_exists.mp h3
                        simp [Processor.conditionalUpdate, Processor.condUpdateFound, hl, hv',
                          Processor.updateResultCase]
                    | null => simp [Processor.conditionalUpdate, Processor.updateResultCase]
                    | bool b => simp [Processor.conditionalUpdate, Processor.updateResultCase]
                    | num q => simp [Processor.conditionalUpdate, Processor.updateResultCase]
                    | arr xs => simp [Processor.conditionalUpdate, Processor.updateResultCase]
                    | obj fs => simp [Processor.conditionalUpdate, Processor.updateResultCase]
            · simp [htys]
          | null => simp [Processor.typeCase]
          | bool b => simp [Processor.typeCase]
          | num q => simp [Processor.typeCase]
          | arr xs => simp [Processor.typeCase]
          | obj fs => simp [Processor.typeCase]

/-- Processing one record never adds or removes store keys. -/
theorem processRecord_fst_isSome (fault : String → Option Processor.DbError) (now : String)
    (store : Store) (r : Processor.SQSRecord) (id : String) :
    (lookupField id (Processor.processRecord fault now store r).1).isSome =
      (lookupField id store).isSome := by
  cases hb : r.body with
  | malformed => simp [Processor.processRecord, Processor.bodyCase, hb]
  | ok mb =>
    simp only [Processor.processRecord, Processor.bodyCase, hb, Processor.processParsed]
    cases hty : jsGet mb "type" with
    | none => simp [Processor.structCase]
    | some tyv =>
      cases hdet : jsGet mb "detail" with
      | none => simp [Processor.structCase]
      | some d =>
        simp only [Processor.structCase]
        by_cases hc : (!jsTruthy tyv || !jsTruthy d) = true
        · simp [hc]
        · simp only [hc, if_false, Bool.false_eq_true, if_neg]
          cases tyv with
          | str tys =>
            simp only [Processor.typeCase]
            by_cases htys : tys = "OrderCreated"
            · simp only [htys, if_pos rfl, Processor.orderCreatedCase]
              by_cases hid : (!jsTruthyO (jsGet d "id")) = true
              · simp [hid]
              · simp only [hid, Bool.false_eq_true, if_neg]
                cases hpo : Processor.processOrderCreated d with
                | error e => simp [Processor.outcomeCase]
                | ok pr =>
                  obtain ⟨st, nt⟩ := pr
                  simp only [Processor.outcomeCase, Processor.attemptUpdate, Processor.faultOr]
                  cases hf : fault r.messageId with
                  | some e => simp [Processor.updateResultCase]
                  | none =>
                    cases ho : (jsGet d "id").getD JValue.null with
                    | str oid =>
                      cases hl : lookupField oid store with
                      | none =>
                        simp [Processor.conditionalUpdate, Processor.condUpdateFound, hl,
                          Processor.updateResultCase]
                      | some v =>
                        simp [Processor.conditionalUpdate, Processor.condUpdateFound, hl,
                          Processor.updateResultCase, lookupField_storeUpdate_isSome]
                    | null => simp [Processor.conditionalUpdate, Processor.updateResultCase]
                    | bool b => simp [Processor.conditionalUpdate, Processor.updateResultCase]
                    | num q => simp [Processor.conditionalUpdate, Processor.updateResultCase]
                    | arr xs => simp [Processor.conditionalUpdate, Processor.updateResultCase]
                    | obj fs => simp [Processor.conditionalUpdate, Processor.updateResultCase]
            · simp [htys]
          | null => simp [Processor.typeCase]
          | bool b => simp [Processor.typeCase]
          | num q => simp [Processor.typeCase]
          | arr xs => simp [Processor.typeCase]
          | obj fs => simp [Processor.typeCase]

/-- Batch record 1: well-formed OrderCreated for existing order `o1`. -/
def goodRec1 : Processor.SQSRecord :=
  ⟨"ok1", .ok (.obj [("type", .str "OrderCreated"), ("detail", .obj [("id", .str "o1")])])⟩

/-- Batch record 2: unparsable body. -/
def malformedRec2 : Processor.SQSRecord := ⟨"bad2", .malformed⟩

/-- Batch record 3: well-formed OrderCreated for existing order `o3`. -/
def goodRec3 : Processor.SQSRecord :=
  ⟨"ok3", .ok (.obj [("type", .str "OrderCreated"), ("detail", .obj [("id", .str "o3")])])⟩

/-- Store holding orders `o1` and `o3`, both PENDING. -/
def batchStore : Store :=
  [("o1", .obj [("id", .str "o1"), ("status", .str "PENDING")]),
   ("o3", .obj [("id", .str "o3"), ("status", .str "PENDING")])]

/-- The store after both good records succeed: both orders CONFIRMED. -/
def batchStoreAfter : Store :=
  [("o1", .obj [("id", .str "o1"), ("status", .str "CONFIRMED"), ("updatedAt", .str "T4"),
      ("processingNotes", .str "Order processed successfully")]),
   ("o3", .obj [("id", .str "o3"), ("status", .str "CONFIRMED"), ("updatedAt", .str "T4"),
      ("processingNotes", .str "Order processed successfully")])]

/-- C4: the processor handles each record independently — the returned
`batchItemFailures` are exactly the `messageId`s of the records that fail
when judged one by one against the incoming store (a failure in one record
never changes another record's outcome, since updates never create or
delete keys) — and, in the three-message scenario with one malformed body,
only that message is reported failed while the other two orders are updated
to CONFIRMED. -/
theorem claim_C4_batch_independent_failures :
    (∀ (fault : String → Option Processor.DbError) (now : String) (store : Store)
        (rs : List Processor.SQSRecord),
      (Processor.handler fault now store rs).2 =
        (rs.filter fun r => (Processor.processRecord fault now store r).2).map
          Processor.SQSRecord.messageId) ∧
    (Processor.handler (fun _ => none) "T4" batchStore [goodRec1, malformedRec2, goodRec3] =
        (batchStoreAfter, ["bad2"]) ∧
      ((lookupField "o1" batchStoreAfter).bind fun o => jsGet o "status") =
        some (.str "CONFIRMED") ∧
      ((lookupField "o3" batchStoreAfter).bind fun o => jsGet o "status") =
        some (.str "CONFIRMED")) := by
  constructor
  · intro fault now store rs
    induction rs generalizing store with
    | nil => simp [Processor.handler]
    | cons r rest ih =>
      simp only [Processor.handler]
      have hcong : ∀ r' ∈ rest,
          (Processor.processRecord fault now (Processor.processRecord fault now store r).1 r').2 =
            (Processor.processRecord fault now store r').2 := fun r' _ =>
        processRecord_snd_congr fault now store _
          (fun id => processRecord_fst_isSome fault now store r id) r'
      rw [ih]
      rw [List.filter_congr hcong]
      rw [List.filter_cons]
      by_cases hr : (Processor.processRecord fault now store r).2 = true
      · simp [hr]
      · simp [hr]
  · refine ⟨?_, by simp [batchStoreAfter, lookupField, jsGet], by simp [batchStoreAfter, lookupField, jsGet]⟩
    simp [Processor.handler, Processor.processRecord, Processor.bodyCase, Processor.processParsed,
      Processor.structCase, Processor.typeCase, Processor.orderCreatedCase, Processor.outcomeCase,
      Processor.attemptUpdate, Processor.faultOr, Processor.conditionalUpdate,
      Processor.condUpdateFound, Processor.updateResultCase, Processor.processOrderCreated,
      Processor.totalValueOfItems, Processor.itemsLengthGt10, Processor.outcomeFor,
      Processor.storeUpdate, Processor.updateOrderRecord, jsSet, eraseField,
      goodRec1, malformedRec2, goodRec3, batchStore, batchStoreAfter,
      jsGet, lookupField, jsTruthy, jsTruthyO,
      show "OrderCreated".isEmpty = false from by decide,
      show "o1".isEmpty = false from by decide,
      show "o3".isEmpty = false from by decide,
      show ¬ ((10000 : Rat) < 0) from by norm_num]

/-! ## Claim C6 -/

/-- C6 counterexample: the claim says a requested limit above 100 is clamped
*into* the range (500 would yield 100); the code instead falls back to the
default: `limit=500` parses to `500` but the effective limit is `10`. -/
theorem claim_C6_counterexample :
    ListOrders.parseIntJS "500" = some 500 ∧
    (ListOrders.parseQueryParameters (some { limit := some "500" })).limit = 10 ∧
    (10 : Int) ≠ 100 := by
  refine ⟨by decide, ?_, by decide⟩
  simp [ListOrders.parseQueryParameters, ListOrders.limitParam, ListOrders.limitOfParse,
    show ListOrders.parseIntJS "500" = some 500 from by decide]

/-- C6 amended: the effective page limit is the requested limit when it
parses to an integer in `1..100`, and the default `10` in every other case —
no request, empty string, unparsable string, non-positive, or above 100
(an out-of-range request is *not* clamped to the range boundary). -/
theorem claim_C6_amended :
    (∀ q : ListOrders.QueryStringParameters,
      (ListOrders.parseQueryParameters (some q)).limit = ListOrders.limitParam q.limit) ∧
    ListOrders.limitParam none = 10 ∧
    (∀ s n, ListOrders.parseIntJS s = some n → 0 < n → n ≤ 100 →
      ListOrders.limitParam (some s) = n) ∧
    (∀ s n, ListOrders.parseIntJS s = some n → (n ≤ 0 ∨ 100 < n) →
      ListOrders.limitParam (some s) = 10) ∧
    (∀ s, ListOrders.parseIntJS s = none → ListOrders.limitParam (some s) = 10) := by
  have hne : ∀ s n, ListOrders.parseIntJS s = some n → s.isEmpty = false := by
    intro s n hs
    by_cases he : s.isEmpty = true
    · rw [String.isEmpty_iff] at he
      subst he
      rw [show ListOrders.parseIntJS "" = none from by decide] at hs
      cases hs
    · simpa using he
  refine ⟨fun q => rfl, rfl, ?_, ?_, ?_⟩
  · intro s n hs h1 h100
    rw [ListOrders.limitParam, hne s n hs]
    simp [ListOrders.limitOfParse, hs, h1, h100]
  · intro s n hs hout
    rw [ListOrders.limitParam, hne s n hs]
    rcases hout with h | h
    · simp [ListOrders.limitOfParse, hs, Int.not_lt.mpr h]
    · simp [ListOrders.limitOfParse, hs, Int.not_le.mpr h]
  · intro s hs
    rw [ListOrders.limitParam]
    by_cases he : s.isEmpty = true
    · simp [he]
    · simp only [Bool.not_eq_true] at he
      simp [he, hs, ListOrders.limitOfParse]

/-- Witness for the amended C6: `50` is used as-is, `500` and `abc` fall back
to `10`. -/
theorem claim_C6_amended_witness :
    ListOrders.parseIntJS "50" = some 50 ∧ ListOrders.limitParam (some "50") = 50 ∧
    ListOrders.parseIntJS "500" = some 500 ∧ ListOrders.limitParam (some "500") = 10 ∧
    ListOrders.parseIntJS "abc" = none ∧ ListOrders.limitParam (some "abc") = 10 :=
  ⟨by decide,
    claim_C6_amended.2.2.1 "50" 50 (by decide) (by decide) (by decide),
    by decide,
    claim_C6_amended.2.2.2.1 "500" 500 (by decide) (Or.inr (by decide)),
    by decide,
    claim_C6_amended.2.2.2.2 "abc" (by decide)⟩

/-! ## Claim C7 -/

/-- C7: a malformed continuation token (one whose base64/JSON decode throws)
is ignored — the list handler answers 200 and behaves exactly as if no token
had been supplied, restarting from the beginning. -/
theorem claim_C7_malformed_token_ignored (store : List JValue)
    (q : ListOrders.QueryStringParameters) (h : q.nextToken = some .malformed) :
    ListOrders.handler store (some q) =
      ListOrders.handler store (some { q with nextToken := none }) ∧
    (ListOrders.handler store (some q)).statusCode = 200 := by
  have hp : ListOrders.parseQueryParameters (some q) =
      ListOrders.parseQueryParameters (some { q with nextToken := none }) := by
    cases q with
    | mk l st so nt =>
      simp only at h
      subst h
      simp [ListOrders.parseQueryParameters, ListOrders.lastEvaluatedKeyParam]
  exact ⟨by simp only [ListOrders.handler, hp], rfl⟩

/-- Witness for C7 at a concrete store and malformed token. -/
theorem claim_C7_malformed_token_ignored_witness :
    ListOrders.handler [JValue.obj [("id", .str "a")]]
        (some { nextToken := some .malformed }) =
      ListOrders.handler [JValue.obj [("id", .str "a")]]
        (some ({ nextToken := none } : ListOrders.QueryStringParameters)) ∧
    (ListOrders.handler [JValue.obj [("id", .str "a")]]
        (some { nextToken := some .malformed })).statusCode = 200 :=
  claim_C7_malformed_token_ignored [JValue.obj [("id", .str "a")]]
    { nextToken := some .malformed } rfl

/-! ## Claim C8 -/

/-- A string passing the UUID regex has 36 characters, hence is non-empty. -/
theorem isValidUUID_ne_empty {s : String} (h : GetOrder.isValidUUID s = true) :
    s.isEmpty = false := by
  by_cases he : s.isEmpty = true
  · rw [String.isEmpty_iff] at he
    subst he
    rw [show GetOrder.isValidUUID "" = false from by decide] at h
    cases h
  · simpa using he

/-- C8: the get handler answers 400 whenever the path id is absent or fails
the UUID regex, 404 (a distinct `notFound` response) whenever the id is a
well-formed UUID absent from the store, and 200 with the enriched order when
the id is present — the two failure modes are never conflated. -/
theorem claim_C8_get_error_modes :
    (∀ store : Store, GetOrder.statusCode (GetOrder.handler store none).2 = 400) ∧
    (∀ (store : Store) (s : String), GetOrder.isValidUUID s = false →
      GetOrder.statusCode (GetOrder.handler store (some s)).2 = 400) ∧
    (∀ (store : Store) (s : String), GetOrder.isValidUUID s = true →
      lookupField s store = none →
      (GetOrder.handler store (some s)).2 =
        .notFound ("Order with ID " ++ s ++ " was not found") ∧
      GetOrder.statusCode (GetOrder.handler store (some s)).2 = 404) ∧
    (∀ (store : Store) (s : String) (order : JValue), GetOrder.isValidUUID s = true →
      lookupField s store = some order →
      (GetOrder.handler store (some s)).2 = .okFound (enrichOrder order) ∧
      GetOrder.statusCode (GetOrder.handler store (some s)).2 = 200) := by
  refine ⟨fun store => rfl, ?_, ?_, ?_⟩
  · intro store s h
    by_cases he : s.isEmpty = true
    · simp [GetOrder.handler, he, GetOrder.statusCode]
    · simp only [Bool.not_eq_true] at he
      simp [GetOrder.handler, he, h, GetOrder.statusCode]
  · intro store s h hl
    have he := isValidUUID_ne_empty h
    constructor <;>
      simp [GetOrder.handler, he, h, hl, GetOrder.foundCase, GetOrder.statusCode]
  · intro store s order h hl
    have he := isValidUUID_ne_empty h
    constructor <;>
      simp [GetOrder.handler, he, h, hl, GetOrder.foundCase, GetOrder.statusCode]

/-- A well-formed (version-1, variant-a) UUID used by the witnesses. -/
def sampleUUID : String := "123e4567-e89b-12d3-a456-426614174000"

/-- A stored order under `sampleUUID` with one `qty 2 × price 5` item. -/
def sampleOrderFields : List (String × JValue) :=
  [("id", .str sampleUUID), ("status", .str "PENDING"),
   ("items", .arr [.obj [("sku", .str "s"), ("qty", .num 2), ("price", .num 5)]])]

/-- Witness for C8: malformed id → 400; absent well-formed id → 404;
present id → 200. -/
theorem claim_C8_get_error_modes_witness :
    GetOrder.isValidUUID "not-a-uuid" = false ∧
    GetOrder.statusCode (GetOrder.handler [] (some "not-a-uuid")).2 = 400 ∧
    GetOrder.isValidUUID sampleUUID = true ∧
    GetOrder.statusCode (GetOrder.handler [] (some sampleUUID)).2 = 404 ∧
    GetOrder.statusCode
      (GetOrder.handler [(sampleUUID, .obj sampleOrderFields)] (some sampleUUID)).2 = 200 := by
  have h1 : GetOrder.isValidUUID "not-a-uuid" = false := by decide
  have h2 : GetOrder.isValidUUID sampleUUID = true := by decide
  have h3 : lookupField sampleUUID ([] : Store) = none := rfl
  have h4 : lookupField sampleUUID [(sampleUUID, JValue.obj sampleOrderFields)] =
      some (.obj sampleOrderFields) := by simp [lookupField]
  exact ⟨h1, claim_C8_get_error_modes.2.1 [] "not-a-uuid" h1, h2,
    (claim_C8_get_error_modes.2.2.1 [] sampleUUID h2 h3).2,
    (claim_C8_get_error_modes.2.2.2 [(sampleUUID, .obj sampleOrderFields)] sampleUUID
      (.obj sampleOrderFields) h2 h4).2⟩

/-! ## Claim C9 -/

namespace GetOrder

/-- The `data` payload of a 200 response (`none` for error responses). -/
def dataOf : GetResult → Option JValue
  | .okFound d => some d
  | _ => none

end GetOrder

/-- One stored item worth `1 × 0.333`. -/
def subCentItems : List JValue :=
  [.obj [("sku", .str "s1"), ("qty", .num 1), ("price", .num (333/1000))]]

/-- The stored order whose exact total `0.333` has more than two decimals. -/
def subCentOrder : JValue :=
  .obj [("id", .str sampleUUID), ("status", .str "PENDING"), ("items", .arr subCentItems)]

/-- C9 counterexample: the claim says the response's `orderTotal` *equals*
the sum of `qty × price`; for a stored price of `0.333` the code's
`parseFloat(orderTotal.toFixed(2))` answers `0.33 ≠ 0.333`. -/
theorem claim_C9_counterexample :
    orderTotalValue subCentItems = 333/1000 ∧
    ((GetOrder.dataOf (GetOrder.handler [(sampleUUID, subCentOrder)] (some sampleUUID)).2).bind
      fun d => jsGet d "orderTotal") = some (.num (33/100)) ∧
    (33/100 : Rat) ≠ 333/1000 := by
  have htot : orderTotalValue subCentItems = 333/1000 := by
    simp [subCentItems, orderTotalValue, itemValue, jsNumOr0, jsGet, lookupField]
  have hfix : toFixed2 (333/1000 : Rat) = 33/100 := by
    rw [toFixed2, if_pos (by norm_num)]
    rw [show ((333 : Rat)/1000 * 100 + 1/2) = 169/5 from by norm_num]
    rw [show (Int.floor ((169 : Rat)/5)) = 33 from Int.floor_eq_iff.mpr (by norm_num)]
    norm_num
  refine ⟨htot, ?_, by norm_num⟩
  have he : sampleUUID.isEmpty = false := by decide
  have hu : GetOrder.isValidUUID sampleUUID = true := by decide
  have hl : lookupField sampleUUID [(sampleUUID, subCentOrder)] = some subCentOrder := by
    simp [lookupField]
  simp only [GetOrder.handler, he, hu, hl, GetOrder.foundCase, Bool.not_true, Bool.false_eq_true,
    if_false, GetOrder.dataOf, Option.some_bind]
  have hrec : orderTotalOfRecord subCentOrder = orderTotalValue subCentItems := by
    unfold orderTotalOfRecord
    rw [show jsGet subCentOrder "items" = some (.arr subCentItems) from by
      simp [subCentOrder, jsGet, lookupField]]
  rw [show enrichOrder subCentOrder =
      jsSet (jsSet subCentOrder "itemCount" (.num (jsLengthOr0 (jsGet subCentOrder "items"))))
        "orderTotal" (.num (toFixed2 (orderTotalOfRecord subCentOrder))) from rfl]
  rw [hrec, htot, hfix]
  rw [show jsSet subCentOrder "itemCount" (.num (jsLengthOr0 (jsGet subCentOrder "items"))) =
      .obj (eraseField "itemCount"
          [("id", .str sampleUUID), ("status", .str "PENDING"), ("items", .arr subCentItems)] ++
        [("itemCount", .num (jsLengthOr0 (jsGet subCentOrder "items")))]) from rfl]
  rw [jsGet_jsSet_same]

/-- C9 amended: for every stored order (an object whose `items` is an array),
the GetByID response carries `orderTotal` equal to the item sum *rounded to
two decimal places* (`parseFloat(sum.toFixed(2))`), `itemCount` equal to the
number of items, both computed at response time, and the store is returned
unchanged (nothing is written back). -/
theorem claim_C9_amended (store : Store) (s : String)
    (fs : List (String × JValue)) (xs : List JValue)
    (hu : GetOrder.isValidUUID s = true)
    (hl : lookupField s store = some (.obj fs))
    (hitems : jsGet (.obj fs) "items" = some (.arr xs)) :
    (GetOrder.handler store (some s)).1 = store ∧
    GetOrder.dataOf (GetOrder.handler store (some s)).2 = some (enrichOrder (.obj fs)) ∧
    ((GetOrder.dataOf (GetOrder.handler store (some s)).2).bind
      fun d => jsGet d "orderTotal") = some (.num (toFixed2 (orderTotalValue xs))) ∧
    ((GetOrder.dataOf (GetOrder.handler store (some s)).2).bind
      fun d => jsGet d "itemCount") = some (.num xs.length) := by
  have he := isValidUUID_ne_empty hu
  have hh : GetOrder.handler store (some s) = (store, .okFound (enrichOrder (.obj fs))) := by
    simp [GetOrder.handler, he, hu, hl, GetOrder.foundCase]
  have hrec : orderTotalOfRecord (.obj fs) = orderTotalValue xs := by
    unfold orderTotalOfRecord
    rw [hitems]
  have hlen : jsLengthOr0 (jsGet (.obj fs) "items") = xs.length := by
    rw [hitems, jsLengthOr0]
  have henrich : enrichOrder (.obj fs) =
      jsSet (jsSet (.obj fs) "itemCount" (.num (jsLengthOr0 (jsGet (.obj fs) "items"))))
        "orderTotal" (.num (toFixed2 (orderTotalOfRecord (.obj fs)))) := rfl
  have hmid : jsSet (.obj fs) "itemCount" (.num (jsLengthOr0 (jsGet (.obj fs) "items"))) =
      .obj (eraseField "itemCount" fs ++
        [("itemCount", .num (jsLengthOr0 (jsGet (.obj fs) "items")))]) := rfl
  refine ⟨by rw [hh], by rw [hh]; rfl, ?_, ?_⟩
  · rw [hh]
    simp only [GetOrder.dataOf, Option.some_bind]
    rw [henrich, hmid, jsGet_jsSet_same, hrec]
  · rw [hh]
    simp only [GetOrder.dataOf, Option.some_bind]
    rw [henrich, hmid, jsGet_jsSet_ne (by decide), ← hmid, jsGet_jsSet_same, hlen]

/-- Witness for the amended C9 at the `sampleUUID` order (`2 × 5 = 10`). -/
theorem claim_C9_amended_witness :
    ((GetOrder.dataOf
        (GetOrder.handler [(sampleUUID, .obj sampleOrderFields)] (some sampleUUID)).2).bind
      fun d => jsGet d "orderTotal") =
        some (.num (toFixed2 (orderTotalValue
          [.obj [("sku", .str "s"), ("qty", .num 2), ("price", .num 5)]]))) ∧
    ((GetOrder.dataOf
        (GetOrder.handler [(sampleUUID, .obj sampleOrderFields)] (some sampleUUID)).2).bind
      fun d => jsGet d "itemCount") = some (.num 1) ∧
    (GetOrder.handler [(sampleUUID, .obj sampleOrderFields)] (some sampleUUID)).1 =
      [(sampleUUID, .obj sampleOrderFields)] := by
  have hu : GetOrder.isValidUUID sampleUUID = true := by decide
  have hl : lookupField sampleUUID [(sampleUUID, JValue.obj sampleOrderFields)] =
      some (.obj sampleOrderFields) := by simp [lookupField]
  have hitems : jsGet (.obj sampleOrderFields) "items" =
      some (.arr [.obj [("sku", .str "s"), ("qty", .num 2), ("price", .num 5)]]) := by
    simp [sampleOrderFields, jsGet, lookupField]
  have h := claim_C9_amended [(sampleUUID, .obj sampleOrderFields)] sampleUUID
    sampleOrderFields [.obj [("sku", .str "s"), ("qty", .num 2), ("price", .num 5)]] hu hl hitems
  exact ⟨h.2.2.1, h.2.2.2, h.1⟩

/-! ## Claim C3: validator characterization lemmas -/

/-- The `customerName` check passes exactly for truthy strings with non-blank
trim. -/
theorem customerNameErrorsOf_eq_nil_iff (cn : Option JValue) :
    CreateOrder.customerNameErrorsOf cn = [] ↔
      ∃ s, cn = some (.str s) ∧ s.isEmpty = false ∧ (jsTrim s).length ≠ 0 := by
  cases cn with
  | none => simp [CreateOrder.customerNameErrorsOf]
  | some v =>
    cases v with
    | str s =>
      by_cases h1 : s.isEmpty = false
      · by_cases h2 : (jsTrim s).length = 0
        · simp [CreateOrder.customerNameErrorsOf, h1, h2]
        · simp [CreateOrder.customerNameErrorsOf, h1, h2]
      · simp only [Bool.not_eq_false] at h1
        simp [CreateOrder.customerNameErrorsOf, h1]
    | null => simp [CreateOrder.customerNameErrorsOf]
    | bool b => simp [CreateOrder.customerNameErrorsOf]
    | num q => simp [CreateOrder.customerNameErrorsOf]
    | arr xs => simp [CreateOrder.customerNameErrorsOf]
    | obj fs => simp [CreateOrder.customerNameErrorsOf]

/-- The `customerName` check produces either no error or exactly its message. -/
theorem customerNameErrorsOf_ne_nil {cn : Option JValue}
    (h : CreateOrder.customerNameErrorsOf cn ≠ []) :
    CreateOrder.customerNameErrorsOf cn =
      ["customerName is required and must be a non-empty string"] := by
  cases cn with
  | none => rfl
  | some v =>
    cases v with
    | str s =>
      by_cases hc : (!s.isEmpty && (jsTrim s).length != 0) = true
      · exact absurd (by simp [CreateOrder.customerNameErrorsOf, hc]) h
      · simp [CreateOrder.customerNameErrorsOf, hc]
    | null => rfl
    | bool b => rfl
    | num q => rfl
    | arr xs => rfl
    | obj fs => rfl

/-- The `sku` check passes exactly for truthy strings. -/
theorem skuErrorsOf_eq_nil_iff (idx : Nat) (sv : Option JValue) :
    CreateOrder.skuErrorsOf idx sv = [] ↔
      ∃ s, sv = some (.str s) ∧ s.isEmpty = false := by
  cases sv with
  | none => simp [CreateOrder.skuErrorsOf]
  | some v =>
    cases v with
    | str s =>
      by_cases h1 : s.isEmpty = false
      · simp [CreateOrder.skuErrorsOf, h1]
      · simp only [Bool.not_eq_false] at h1
        simp [CreateOrder.skuErrorsOf, h1]
    | null => simp [CreateOrder.skuErrorsOf]
    | bool b => simp [CreateOrder.skuErrorsOf]
    | num q => simp [CreateOrder.skuErrorsOf]
    | arr xs => simp [CreateOrder.skuErrorsOf]
    | obj fs => simp [CreateOrder.skuErrorsOf]

/-- The failed `sku` check produces exactly its message. -/
theorem skuErrorsOf_ne_nil {idx : Nat} {sv : Option JValue}
    (h : CreateOrder.skuErrorsOf idx sv ≠ []) :
    CreateOrder.skuErrorsOf idx sv =
      ["Item " ++ toString idx ++ ": sku is required and must be a string"] := by
  cases sv with
  | none => rfl
  | some v =>
    cases v with
    | str s =>
      by_cases hc : (!s.isEmpty) = true
      · exact absurd (by simp [CreateOrder.skuErrorsOf, hc]) h
      · simp [CreateOrder.skuErrorsOf, hc]
    | null => rfl
    | bool b => rfl
    | num q => rfl
    | arr xs => rfl
    | obj fs => rfl

/-- The `qty` check passes exactly for positive numbers. -/
theorem qtyErrorsOf_eq_nil_iff (idx : Nat) (qv : Option JValue) :
    CreateOrder.qtyErrorsOf idx qv = [] ↔ ∃ q : Rat, qv = some (.num q) ∧ 0 < q := by
  cases qv with
  | none => simp [CreateOrder.qtyErrorsOf]
  | some v =>
    cases v with
    | num q =>
      by_cases h1 : 0 < q
      · simp [CreateOrder.qtyErrorsOf, h1]
      · simp [CreateOrder.qtyErrorsOf, h1]
    | null => simp [CreateOrder.qtyErrorsOf]
    | bool b => simp [CreateOrder.qtyErrorsOf]
    | str s => simp [CreateOrder.qtyErrorsOf]
    | arr xs => simp [CreateOrder.qtyErrorsOf]
    | obj fs => simp [CreateOrder.qtyErrorsOf]

/-- The failed `qty` check produces exactly its message. -/
theorem qtyErrorsOf_ne_nil {idx : Nat} {qv : Option JValue}
    (h : CreateOrder.qtyErrorsOf idx qv ≠ []) :
    CreateOrder.qtyErrorsOf idx qv =
      ["Item " ++ toString idx ++ ": qty is required and must be a positive number"] := by
  cases qv with
  | none => rfl
  | some v =>
    cases v with
    | num q =>
      by_cases hc : q > 0
      · exact absurd (by simp [CreateOrder.qtyErrorsOf, hc]) h
      · simp [CreateOrder.qtyErrorsOf, hc]
    | null => rfl
    | bool b => rfl
    | str s => rfl
    | arr xs => rfl
    | obj fs => rfl

/-- The `price` check passes exactly when the field is absent or a
non-negative number. -/
theorem priceErrorsOf_eq_nil_iff (idx : Nat) (pv : Option JValue) :
    CreateOrder.priceErrorsOf idx pv = [] ↔
      pv = none ∨ ∃ q : Rat, pv = some (.num q) ∧ 0 ≤ q := by
  cases pv with
  | none => simp [CreateOrder.priceErrorsOf]
  | some v =>
    cases v with
    | num q =>
      by_cases h1 : 0 ≤ q
      · simp [CreateOrder.priceErrorsOf, h1]
      · simp [CreateOrder.priceErrorsOf, h1]
    | null => simp [CreateOrder.priceErrorsOf]
    | bool b => simp [CreateOrder.priceErrorsOf]
    | str s => simp [CreateOrder.priceErrorsOf]
    | arr xs => simp [CreateOrder.priceErrorsOf]
    | obj fs => simp [CreateOrder.priceErrorsOf]

/-- The failed `price` check produces exactly its message. -/
theorem priceErrorsOf_ne_nil {idx : Nat} {pv : Option JValue}
    (h : CreateOrder.priceErrorsOf idx pv ≠ []) :
    CreateOrder.priceErrorsOf idx pv =
      ["Item " ++ toString idx ++ ": price must be a non-negative number"] := by
  cases pv with
  | none => cases h rfl
  | some v =>
    cases v with
    | num q =>
      by_cases hc : q ≥ 0
      · exact absurd (by simp [CreateOrder.priceErrorsOf, hc]) h
      · simp [CreateOrder.priceErrorsOf, hc]
    | null => rfl
    | bool b => rfl
    | str s => rfl
    | arr xs => rfl
    | obj fs => rfl

/-- One item contributes no error exactly when all three field checks pass. -/
theorem itemFieldErrors_eq_nil_iff (idx : Nat) (item : JValue) :
    CreateOrder.itemFieldErrors idx item = [] ↔
      ((∃ s, jsGet item "sku" = some (.str s) ∧ s.isEmpty = false) ∧
        (∃ q : Rat, jsGet item "qty" = some (.num q) ∧ 0 < q) ∧
        (jsGet item "price" = none ∨
          ∃ q : Rat, jsGet item "price" = some (.num q) ∧ 0 ≤ q)) := by
  rw [CreateOrder.itemFieldErrors, List.append_eq_nil, List.append_eq_nil,
    skuErrorsOf_eq_nil_iff, qtyErrorsOf_eq_nil_iff, priceErrorsOf_eq_nil_iff, and_assoc]

/-- Per-item errors over the indexed `forEach` vanish exactly when every item
passes (the index only names the message, not the verdict). -/
theorem flatten_itemErrors_eq_nil_iff (xs : List JValue) :
    ∀ n : Nat,
      (((List.enumFrom n xs).map fun p => CreateOrder.itemFieldErrors p.1 p.2).flatten = [] ↔
        ∀ item ∈ xs, CreateOrder.itemFieldErrors 0 item = []) := by
  induction xs with
  | nil => intro n; simp
  | cons x xs ih =>
    intro n
    simp only [List.enumFrom, List.map_cons, List.flatten_cons, List.append_eq_nil,
      List.mem_cons]
    constructor
    · rintro ⟨h1, h2⟩
      intro item hitem
      rcases hitem with rfl | hitem
      · exact (itemFieldErrors_eq_nil_iff 0 item).mpr ((itemFieldErrors_eq_nil_iff n item).mp h1)
      · exact ((ih (n + 1)).mp h2) item hitem
    · intro h
      refine ⟨(itemFieldErrors_eq_nil_iff n x).mpr
        ((itemFieldErrors_eq_nil_iff 0 x).mp (h x (Or.inl rfl))), ?_⟩
      exact (ih (n + 1)).mpr fun item hitem => h item (Or.inr hitem)

/-- The `items` check contributes no error exactly when the field is a
non-empty array all of whose items pass. -/
theorem itemsErrorsOf_eq_nil_iff (iv : Option JValue) :
    CreateOrder.itemsErrorsOf iv = [] ↔
      ∃ xs, iv = some (.arr xs) ∧ xs ≠ [] ∧
        ∀ item ∈ xs, CreateOrder.itemFieldErrors 0 item = [] := by
  cases iv with
  | none => simp [CreateOrder.itemsErrorsOf]
  | some v =>
    cases v with
    | arr xs =>
      by_cases hxs : xs.length = 0
      · rw [List.length_eq_zero] at hxs
        subst hxs
        simp [CreateOrder.itemsErrorsOf]
      · have hne : xs ≠ [] := fun hh => hxs (by rw [hh]; rfl)
        rw [show CreateOrder.itemsErrorsOf (some (.arr xs)) =
            ((xs.enum.map fun p => CreateOrder.itemFieldErrors p.1 p.2).flatten) from by
          simp [CreateOrder.itemsErrorsOf, hxs]]
        rw [show xs.enum = List.enumFrom 0 xs from rfl]
        rw [flatten_itemErrors_eq_nil_iff xs 0]
        constructor
        · intro h; exact ⟨xs, rfl, hne, h⟩
        · rintro ⟨ys, hy, _, h⟩
          cases hy
          exact h
    | null => simp [CreateOrder.itemsErrorsOf]
    | bool b => simp [CreateOrder.itemsErrorsOf]
    | num q => simp [CreateOrder.itemsErrorsOf]
    | str s => simp [CreateOrder.itemsErrorsOf]
    | obj fs => simp [CreateOrder.itemsErrorsOf]

/-- When the `items` field is not a non-empty array, its check produces
exactly the single array-shape message. -/
theorem itemsErrorsOf_shape_msg {iv : Option JValue}
    (h : ¬ ∃ xs, iv = some (.arr xs) ∧ xs ≠ []) :
    CreateOrder.itemsErrorsOf iv = ["items must be a non-empty array"] := by
  cases iv with
  | none => rfl
  | some v =>
    cases v with
    | arr xs =>
      by_cases hxs : xs.length = 0
      · simp [CreateOrder.itemsErrorsOf, hxs]
      · exact absurd ⟨xs, rfl, fun hh => hxs (by rw [hh]; rfl)⟩ h
    | null => rfl
    | bool b => rfl
    | num q => rfl
    | str s => rfl
    | obj fs => rfl

/-- `validateOrderData` on a truthy body accumulates the name and items
errors. -/
theorem validateOrderData_errors_of_truthy {v : JValue} (ht : jsTruthy v = true) :
    (CreateOrder.validateOrderData v).errors =
      CreateOrder.customerNameErrorsOf (jsGet v "customerName") ++
        CreateOrder.itemsErrorsOf (jsGet v "items") := by
  simp [CreateOrder.validateOrderData, ht]

/-- `validateOrderData` accepts exactly truthy bodies whose two checks pass. -/
theorem validateOrderData_isValid_iff (v : JValue) :
    (CreateOrder.validateOrderData v).isValid = true ↔
      jsTruthy v = true ∧
        CreateOrder.customerNameErrorsOf (jsGet v "customerName") = [] ∧
        CreateOrder.itemsErrorsOf (jsGet v "items") = [] := by
  by_cases ht : jsTruthy v = true
  · simp [CreateOrder.validateOrderData, ht, List.isEmpty_iff, List.append_eq_nil]
  · simp only [Bool.not_eq_true] at ht
    simp [CreateOrder.validateOrderData, ht]

/-- A message found in a per-item error list surfaces (at some index) in the
flattened `forEach` output. -/
theorem exists_mem_flatten_itemErrors {xs : List JValue} {item : JValue}
    (hmem : item ∈ xs) (msg : Nat → String)
    (hmsg : ∀ i, msg i ∈ CreateOrder.itemFieldErrors i item) :
    ∀ n : Nat, ∃ i,
      msg i ∈ ((List.enumFrom n xs).map fun p => CreateOrder.itemFieldErrors p.1 p.2).flatten := by
  induction xs with
  | nil => cases hmem
  | cons x xs ih =>
    intro n
    rcases List.mem_cons.mp hmem with rfl | hmem'
    · exact ⟨n, by
        simp only [List.enumFrom, List.map_cons, List.flatten_cons, List.mem_append]
        exact Or.inl (hmsg n)⟩
    · obtain ⟨i, hi⟩ := ih hmem' (n + 1)
      exact ⟨i, by
        simp only [List.enumFrom, List.map_cons, List.flatten_cons, List.mem_append]
        exact Or.inr hi⟩

/-- C3 amended: the create gate fails with HTTP 400 *exactly* when the body
is unparsable or falsy, `customerName` is not a truthy non-blank string,
`items` is not a non-empty array, or some item has no truthy string `sku`,
no positive numeric `qty`, or a present `price` that is not a non-negative
number (the validator enforces types, not only presence/sign); an absent
body validates the empty object and fails; and every violated field
contributes its own message to the error list, not just the first found. -/
theorem claim_C3_validation_exactness :
    (∀ v : JValue,
      (CreateOrder.validateOrderData v).isValid = false ↔
        (jsTruthy v = false ∨
          ¬ (∃ s, jsGet v "customerName" = some (.str s) ∧ s.isEmpty = false ∧
              (jsTrim s).length ≠ 0) ∨
          ¬ (∃ xs, jsGet v "items" = some (.arr xs) ∧ xs ≠ []) ∨
          (∃ xs, jsGet v "items" = some (.arr xs) ∧ ∃ item ∈ xs,
            (¬ ∃ s, jsGet item "sku" = some (.str s) ∧ s.isEmpty = false) ∨
            (¬ ∃ q : Rat, jsGet item "qty" = some (.num q) ∧ 0 < q) ∨
            (jsGet item "price" ≠ none ∧
              ¬ ∃ q : Rat, jsGet item "price" = some (.num q) ∧ 0 ≤ q)))) ∧
    CreateOrder.gateStatus (CreateOrder.createOrderGate none) = some 400 ∧
    CreateOrder.gateStatus (CreateOrder.createOrderGate (some .malformed)) = some 400 ∧
    (∀ v, CreateOrder.gateStatus (CreateOrder.createOrderGate (some (.ok v))) = some 400 ↔
      (CreateOrder.validateOrderData v).isValid = false) ∧
    (∀ v, jsTruthy v = true →
      ((¬ (∃ s, jsGet v "customerName" = some (.str s) ∧ s.isEmpty = false ∧
          (jsTrim s).length ≠ 0)) →
        "customerName is required and must be a non-empty string" ∈
          (CreateOrder.validateOrderData v).errors) ∧
      ((¬ ∃ xs, jsGet v "items" = some (.arr xs) ∧ xs ≠ []) →
        "items must be a non-empty array" ∈ (CreateOrder.validateOrderData v).errors) ∧
      (∀ xs, jsGet v "items" = some (.arr xs) → xs ≠ [] → ∀ item ∈ xs,
        ((¬ ∃ s, jsGet item "sku" = some (.str s) ∧ s.isEmpty = false) →
          ∃ i : Nat, ("Item " ++ toString i ++ ": sku is required and must be a string") ∈
            (CreateOrder.validateOrderData v).errors) ∧
        ((¬ ∃ q : Rat, jsGet item "qty" = some (.num q) ∧ 0 < q) →
          ∃ i : Nat, ("Item " ++ toString i ++ ": qty is required and must be a positive number") ∈
            (CreateOrder.validateOrderData v).errors) ∧
        ((jsGet item "price" ≠ none ∧
            ¬ ∃ q : Rat, jsGet item "price" = some (.num q) ∧ 0 ≤ q) →
          ∃ i : Nat, ("Item " ++ toString i ++ ": price must be a non-negative number") ∈
            (CreateOrder.validateOrderData v).errors))) := by
  have main : ∀ v : JValue,
      (CreateOrder.validateOrderData v).isValid = false ↔
        (jsTruthy v = false ∨
          ¬ (∃ s, jsGet v "customerName" = some (.str s) ∧ s.isEmpty = false ∧
              (jsTrim s).length ≠ 0) ∨
          ¬ (∃ xs, jsGet v "items" = some (.arr xs) ∧ xs ≠ []) ∨
          (∃ xs, jsGet v "items" = some (.arr xs) ∧ ∃ item ∈ xs,
            (¬ ∃ s, jsGet item "sku" = some (.str s) ∧ s.isEmpty = false) ∨
            (¬ ∃ q : Rat, jsGet item "qty" = some (.num q) ∧ 0 < q) ∨
            (jsGet item "price" ≠ none ∧
              ¬ ∃ q : Rat, jsGet item "price" = some (.num q) ∧ 0 ≤ q))) := by
    intro v
    have hb : ((CreateOrder.validateOrderData v).isValid = false) ↔
        ¬ ((CreateOrder.validateOrderData v).isValid = true) := by simp
    rw [hb, validateOrderData_isValid_iff]
    have hcn := customerNameErrorsOf_eq_nil_iff (jsGet v "customerName")
    have hit := itemsErrorsOf_eq_nil_iff (jsGet v "items")
    constructor
    · intro hinv
      by_cases ht : jsTruthy v = true
      · by_cases hcn0 : CreateOrder.customerNameErrorsOf (jsGet v "customerName") = []
        · have hit0 : ¬ CreateOrder.itemsErrorsOf (jsGet v "items") = [] := fun h =>
            hinv ⟨ht, hcn0, h⟩
          by_cases hshape : ∃ xs, jsGet v "items" = some (.arr xs) ∧ xs ≠ []
          · obtain ⟨xs, hxs, hne⟩ := hshape
            have hnall : ¬ ∀ item ∈ xs, CreateOrder.itemFieldErrors 0 item = [] := fun hall =>
              hit0 (hit.mpr ⟨xs, hxs, hne, hall⟩)
            push_neg at hnall
            obtain ⟨item, hitem, hbad⟩ := hnall
            have hbad' : ¬ ((∃ s, jsGet item "sku" = some (.str s) ∧ s.isEmpty = false) ∧
                (∃ q : Rat, jsGet item "qty" = some (.num q) ∧ 0 < q) ∧
                (jsGet item "price" = none ∨
                  ∃ q : Rat, jsGet item "price" = some (.num q) ∧ 0 ≤ q)) := fun hg =>
              hbad ((itemFieldErrors_eq_nil_iff 0 item).mpr hg)
            refine Or.inr (Or.inr (Or.inr ⟨xs, hxs, item, hitem, ?_⟩))
            by_cases hA : ∃ s, jsGet item "sku" = some (.str s) ∧ s.isEmpty = false
            · by_cases hB : ∃ q : Rat, jsGet item "qty" = some (.num q) ∧ 0 < q
              · by_cases hC : jsGet item "price" = none ∨
                    ∃ q : Rat, jsGet item "price" = some (.num q) ∧ 0 ≤ q
                · exact absurd ⟨hA, hB, hC⟩ hbad'
                · rw [not_or] at hC
                  exact Or.inr (Or.inr hC)
              · exact Or.inr (Or.inl hB)
            · exact Or.inl hA
          · exact Or.inr (Or.inr (Or.inl hshape))
        · exact Or.inr (Or.inl fun hgood => hcn0 (hcn.mpr hgood))
      · exact Or.inl (by simpa using ht)
    · rintro (hf | hncn | hnshape | ⟨xs, hxs, item, hitem, hbad⟩) ⟨ht, hcn0, hit0⟩
      · rw [ht] at hf; cases hf
      · exact hncn (hcn.mp hcn0)
      · obtain ⟨ys, hy, hne, _⟩ := hit.mp hit0
        exact hnshape ⟨ys, hy, hne⟩
      · obtain ⟨ys, hy, hne, hall⟩ := hit.mp hit0
        rw [hxs] at hy
        cases hy
        have hgood := (itemFieldErrors_eq_nil_iff 0 item).mp (hall item hitem)
        rcases hbad with hs | hq | ⟨hpne, hpn⟩
        · exact hs hgood.1
        · exact hq hgood.2.1
        · rcases hgood.2.2 with h0 | hq0
          · exact hpne h0
          · exact hpn hq0
  refine ⟨main, ?_, rfl, ?_, ?_⟩
  · have : (CreateOrder.validateOrderData (.obj [])).isValid = false := by
      simp [CreateOrder.validateOrderData, jsTruthy, jsGet, lookupField,
        CreateOrder.customerNameErrorsOf, CreateOrder.itemsErrorsOf]
    simp [CreateOrder.createOrderGate, CreateOrder.gateCheck, CreateOrder.gateStatus, this]
  · intro v
    cases hb : (CreateOrder.validateOrderData v).isValid
    · simp [CreateOrder.createOrderGate, CreateOrder.gateCheck, CreateOrder.gateStatus, hb]
    · simp [CreateOrder.createOrderGate, CreateOrder.gateCheck, CreateOrder.gateStatus, hb]
  · intro v ht
    have herr := validateOrderData_errors_of_truthy ht
    refine ⟨?_, ?_, ?_⟩
    · intro hncn
      have h0 : CreateOrder.customerNameErrorsOf (jsGet v "customerName") ≠ [] := fun h =>
        hncn ((customerNameErrorsOf_eq_nil_iff _).mp h)
      rw [herr]
      exact List.mem_append.mpr (Or.inl (by rw [customerNameErrorsOf_ne_nil h0]; exact List.mem_singleton.mpr rfl))
    · intro hnshape
      rw [herr]
      exact List.mem_append.mpr (Or.inr (by rw [itemsErrorsOf_shape_msg hnshape]; exact List.mem_singleton.mpr rfl))
    · intro xs hxs hne item hitem
      have hlen : ¬ xs.length = 0 := fun h => hne (List.length_eq_zero.mp h)
      have hflat : CreateOrder.itemsErrorsOf (jsGet v "items") =
          ((List.enumFrom 0 xs).map fun p => CreateOrder.itemFieldErrors p.1 p.2).flatten := by
        rw [hxs]
        simp [CreateOrder.itemsErrorsOf, hlen, List.enum]
      refine ⟨?_, ?_, ?_⟩
      · intro hbad
        have h0 : ∀ i, CreateOrder.skuErrorsOf i (jsGet item "sku") =
            ["Item " ++ toString i ++ ": sku is required and must be a string"] := fun i =>
          skuErrorsOf_ne_nil fun h => hbad ((skuErrorsOf_eq_nil_iff i _).mp h)
        have hmsg : ∀ i, ("Item " ++ toString i ++ ": sku is required and must be a string") ∈
            CreateOrder.itemFieldErrors i item := by
          intro i
          rw [CreateOrder.itemFieldErrors]
          exact List.mem_append.mpr (Or.inl (List.mem_append.mpr (Or.inl
            (by rw [h0 i]; exact List.mem_singleton.mpr rfl))))
        obtain ⟨i, hi⟩ := exists_mem_flatten_itemErrors hitem
          (fun i => "Item " ++ toString i ++ ": sku is required and must be a string") hmsg 0
        exact ⟨i, by rw [herr, hflat]; exact List.mem_append.mpr (Or.inr hi)⟩
      · intro hbad
        have h0 : ∀ i, CreateOrder.qtyErrorsOf i (jsGet item "qty") =
            ["Item " ++ toString i ++ ": qty is required and must be a positive number"] := fun i =>
          qtyErrorsOf_ne_nil fun h => hbad ((qtyErrorsOf_eq_nil_iff i _).mp h)
        have hmsg : ∀ i,
            ("Item " ++ toString i ++ ": qty is required and must be a positive number") ∈
              CreateOrder.itemFieldErrors i item := by
          intro i
          rw [CreateOrder.itemFieldErrors]
          exact List.mem_append.mpr (Or.inl (List.mem_append.mpr (Or.inr
            (by rw [h0 i]; exact List.mem_singleton.mpr rfl))))
        obtain ⟨i, hi⟩ := exists_mem_flatten_itemErrors hitem
          (fun i => "Item " ++ toString i ++ ": qty is required and must be a positive number") hmsg 0
        exact ⟨i, by rw [herr, hflat]; exact List.mem_append.mpr (Or.inr hi)⟩
      · intro hbad
        have h0 : ∀ i, CreateOrder.priceErrorsOf i (jsGet item "price") =
            ["Item " ++ toString i ++ ": price must be a non-negative number"] := by
          intro i
          apply priceErrorsOf_ne_nil
          intro h
          rcases (priceErrorsOf_eq_nil_iff i _).mp h with h1 | h1
          · exact hbad.1 h1
          · exact hbad.2 h1
        have hmsg : ∀ i, ("Item " ++ toString i ++ ": price must be a non-negative number") ∈
            CreateOrder.itemFieldErrors i item := by
          intro i
          rw [CreateOrder.itemFieldErrors]
          exact List.mem_append.mpr (Or.inr (by rw [h0 i]; exact List.mem_singleton.mpr rfl))
        obtain ⟨i, hi⟩ := exists_mem_flatten_itemErrors hitem
          (fun i => "Item " ++ toString i ++ ": price must be a non-negative number") hmsg 0
        exact ⟨i, by rw [herr, hflat]; exact List.mem_append.mpr (Or.inr hi)⟩

/-- An item whose `sku` is present but numeric (`sku: 7`), `qty` positive,
`price` non-negative. -/
def numericSkuItem : JValue := .obj [("sku", .num 7), ("qty", .num 2), ("price", .num 5)]

/-- A body violating none of the claim's listed conditions. -/
def numericSkuBody : JValue :=
  .obj [("customerName", .str "Alice"), ("items", .arr [numericSkuItem])]

/-- C3 counterexample: the claim's failure conditions are body
missing/unparsable, `customerName` missing/blank, `items`
missing/empty/not-a-sequence, or an item with *missing* `sku`, non-positive
`qty`, or negative `price` — and "on any other input it does not fail
validation".  This body violates none of those (sku is present, qty `2 > 0`,
price `5 ≥ 0`, customerName non-blank, items a non-empty array), yet the
validator rejects it (the sku type check fails), so the "exactly when" is
false. -/
theorem claim_C3_counterexample :
    (CreateOrder.validateOrderData numericSkuBody).isValid = false ∧
    CreateOrder.gateStatus (CreateOrder.createOrderGate (some (.ok numericSkuBody))) =
      some 400 ∧
    jsTruthy numericSkuBody = true ∧
    jsGet numericSkuBody "customerName" = some (.str "Alice") ∧
    "Alice".isEmpty = false ∧ (jsTrim "Alice").length ≠ 0 ∧
    jsGet numericSkuBody "items" = some (.arr [numericSkuItem]) ∧
    (jsGet numericSkuItem "sku").isSome = true ∧
    jsGet numericSkuItem "qty" = some (.num 2) ∧ (0 : Rat) < 2 ∧
    jsGet numericSkuItem "price" = some (.num 5) ∧ (0 : Rat) ≤ 5 := by
  have hinv : (CreateOrder.validateOrderData numericSkuBody).isValid = false := by
    simp [CreateOrder.validateOrderData, CreateOrder.customerNameErrorsOf,
      CreateOrder.itemsErrorsOf, CreateOrder.itemFieldErrors, CreateOrder.skuErrorsOf,
      CreateOrder.qtyErrorsOf, CreateOrder.priceErrorsOf, numericSkuBody, numericSkuItem,
      jsGet, lookupField, jsTruthy, List.enum,
      show (0 : Rat) < 2 from by norm_num, show (0 : Rat) ≤ 5 from by norm_num]
  refine ⟨hinv, ?_, by decide, by simp [numericSkuBody, jsGet, lookupField], by decide,
    by decide, by simp [numericSkuBody, jsGet, lookupField],
    by simp [numericSkuItem, jsGet, lookupField], by simp [numericSkuItem, jsGet, lookupField],
    by norm_num, by simp [numericSkuItem, jsGet, lookupField], by norm_num⟩
  simp [CreateOrder.createOrderGate, CreateOrder.gateCheck, CreateOrder.gateStatus, hinv]

/-- Witness for the amended C3 at a body violating both top-level checks:
the validator rejects it and lists both field messages. -/
theorem claim_C3_validation_exactness_witness :
    (CreateOrder.validateOrderData (.obj [("items", .str "zero")])).isValid = false ∧
    "customerName is required and must be a non-empty string" ∈
      (CreateOrder.validateOrderData (.obj [("items", .str "zero")])).errors ∧
    "items must be a non-empty array" ∈
      (CreateOrder.validateOrderData (.obj [("items", .str "zero")])).errors := by
  have h1 : (CreateOrder.validateOrderData (.obj [("items", .str "zero")])).isValid = false :=
    (claim_C3_validation_exactness.1 (.obj [("items", .str "zero")])).mpr
      (Or.inr (Or.inl (by simp [jsGet, lookupField])))
  have hlist := claim_C3_validation_exactness.2.2.2.2 (.obj [("items", .str "zero")]) (by decide)
  exact ⟨h1, hlist.1 (by simp [jsGet, lookupField]), hlist.2.1 (by simp [jsGet, lookupField])⟩
